import Mathlib

/-!
Verification of the shipment anomaly detector
(src/backend/analytics/shipment_anomaly_detector.py).

The Python module is shallowly embedded here:

* numbers (coordinates, speeds, temperatures, hours) are modelled as `ℚ`;
* an ISO-8601 timestamp string is kept as a `String`; the composite
  `datetime.fromisoformat(s.replace("Z", "+00:00"))` is an opaque partial
  function and is passed around as a parameter `parse : String → Option ℚ`
  returning the instant in seconds (`none` models the `ValueError` raised
  on an unparsable string);
* `geopy.distance.distance(a, b).km` is likewise passed as a parameter
  `dist : ℚ × ℚ → ℚ × ℚ → Option ℚ` (`none` models an exception raised by
  the distance computation);
* `datetime.now()` is a parameter `now : ℚ`, and `datetime.now().isoformat()`
  a parameter `nowS : String`;
* a Python dict field that may be absent is an `Option`; a function that can
  raise an uncaught exception returns `Except PyErr`;
* the detector is modelled in baseline-free mode (`historical_data = None`,
  the constructor's default when no readable historical CSV is supplied), in
  which the cargo-value fraud sub-check is statically skipped by the
  `self.historical_data is not None` guard.
-/

set_option autoImplicit false

namespace ShipmentAnomaly

/-- Uncaught Python exceptions that can escape `detect_anomalies`. -/
inductive PyErr
  | keyError
  | indexError
  deriving DecidableEq, Repr

/-- One telemetry / waypoint dict: optional keys `latitude`, `longitude`,
`timestamp`, `speed`, `temperature`. -/
structure Pt where
  latitude : Option ℚ := none
  longitude : Option ℚ := none
  timestamp : Option String := none
  speed : Option ℚ := none
  temperature : Option ℚ := none
  deriving DecidableEq, Repr

/-- The `cargo` mapping (`shipment.get('cargo', {})`).  `temperature_range`
is `some (min, max)` exactly when the range dict carries both a `min` and a
`max` key (otherwise `_detect_temperature_breaches` returns early, which is
all the code observes about it).  `hazardousInStr` models the test
`'hazardous' in str(cargo).lower()` performed by the demonstration check. -/
structure Cargo where
  value : Option ℚ := none
  temperature_controlled : Bool := false
  temperature_range : Option (ℚ × ℚ) := none
  hazardousInStr : Bool := false
  deriving DecidableEq, Repr

/-- A shipment dict.  `destination` models
`shipment['destination']['coordinates']`: `none` when the `destination`
key is absent, `some none` when present without usable coordinates, and
`some (some (lat, lon))` when the nested coordinates are present (the only
distinctions the detector observes).  `cargo` folds the `.get('cargo', {})`
default into the field. -/
structure Shipment where
  id : Option String := none
  status : Option String := none
  cargo : Cargo := {}
  destination : Option (Option (ℚ × ℚ)) := none
  planned_route : List Pt := []
  actual_route : List Pt := []
  estimated_arrival_time : Option String := none
  actual_arrival_time : Option String := none
  updated_at : Option String := none
  deriving DecidableEq, Repr

/-- Anomaly `type` values occurring in the module. -/
inductive AType
  | delay
  | hazardous_material
  | route_deviation
  | unusual_stop
  | speed_violation
  | potential_fraud
  | temperature_breach
  deriving DecidableEq, Repr

/-- Anomaly `severity` values. -/
inductive Severity
  | low
  | medium
  | high
  deriving DecidableEq, Repr

/-- A distance value during the route-deviation scan: `float('inf')` or a
finite number of kilometres. -/
inductive RDist
  | fin (q : ℚ)
  | inf
  deriving DecidableEq, Repr

/-- Strict `<` on `RDist`, matching Python float comparison with `inf`. -/
def RDist.blt : RDist → RDist → Bool
  | .inf, _ => false
  | .fin _, .inf => true
  | .fin a, .fin b => decide (a < b)

/-- Semantic model of the `description` f-strings: each constructor records
the numeric evidence interpolated into the corresponding message. -/
inductive Desc
  | demoDelay
  | demoHazard
  | demoRoute
  | routeDeviation (km : RDist)
  | unusualStop (minutes : ℚ)
  | speedViolation (maxSpeed : ℚ)
  | fraudRevisit
  | delayDelivered (hours : ℚ)
  | delayInTransit (hours : ℚ)
  | delayProjected (hours : ℚ)
  | tempLow (recorded lowBound : ℚ)
  | tempHigh (recorded highBound : ℚ)
  deriving DecidableEq, Repr

/-- The string that lands in an anomaly's `timestamp` slot: a raw string
taken from the input, the `isoformat()` of a parsed datetime `t`, or
`datetime.now().isoformat()`. -/
inductive ATime
  | str (s : String)
  | iso (t : ℚ)
  | now
  deriving DecidableEq, Repr

/-- An anomaly `location` dict (fields can be `None`, see
`_detect_route_deviations`). -/
structure Loc where
  latitude : Option ℚ := none
  longitude : Option ℚ := none
  deriving DecidableEq, Repr

/-- One anomaly record. -/
structure Anomaly where
  type : AType
  desc : Desc
  severity : Severity
  timestamp : ATime
  location : Option Loc
  resolved : Bool
  deriving DecidableEq, Repr

/-! ### Detector thresholds (fixed in `__init__`) -/

def route_deviation_threshold : ℚ := 1/5

def unusual_stop_threshold_minutes : ℚ := 30

def speed_threshold : ℚ := 120

def value_deviation_threshold : ℚ := 3/10

/-- Python `x or datetime.now().isoformat()` for an optional string `x`:
Python falls back when `x` is `None` or the empty string (both falsy). -/
def orNow : Option String → ATime
  | none => .now
  | some s => if s = "" then .now else .str s

/-! ### Generic list helpers (spec side) -/

/-- Minimum of a list of rationals (0 for the empty list; only used on
non-empty lists). -/
def listMinD : List ℚ → ℚ
  | [] => 0
  | a :: as => as.foldl min a

/-- Maximum of a list of rationals (0 for the empty list; only used on
non-empty lists). -/
def listMaxD : List ℚ → ℚ
  | [] => 0
  | a :: as => as.foldl max a

/-- Insert into a list sorted by key `T`, after all existing elements with a
key `≤ T a` (the placement a stable sort produces). -/
def insertByT {α : Type} (T : α → ℚ) (a : α) : List α → List α
  | [] => [a]
  | b :: bs => if T b ≤ T a then b :: insertByT T a bs else a :: b :: bs

/-- Stable sort by key `T`, modelling Python's stable `sorted(..., key=...)`. -/
def sortByT {α : Type} (T : α → ℚ) (l : List α) : List α :=
  l.foldl (fun acc a => insertByT T a acc) []

theorem mem_insertByT {α : Type} (T : α → ℚ) (a x : α) :
    ∀ l : List α, x ∈ insertByT T a l ↔ x = a ∨ x ∈ l := by
  intro l
  induction l with
  | nil => simp [insertByT]
  | cons b bs ih =>
    by_cases h : T b ≤ T a
    · simp only [insertByT, if_pos h, List.mem_cons, ih]
      tauto
    · simp only [insertByT, if_neg h, List.mem_cons]

theorem mem_sortByT {α : Type} (T : α → ℚ) (l : List α) (x : α) :
    x ∈ sortByT T l ↔ x ∈ l := by
  suffices h : ∀ acc : List α, x ∈ l.foldl (fun acc a => insertByT T a acc) acc ↔ x ∈ acc ∨ x ∈ l by
    have := h []
    simpa [sortByT] using this
  induction l with
  | nil => intro acc; simp
  | cons b bs ih =>
    intro acc
    simp only [List.foldl_cons, ih, mem_insertByT, List.mem_cons]
    tauto

theorem dropWhile_len_le {α : Type} (p : α → Bool) :
    ∀ l : List α, (l.dropWhile p).length ≤ l.length
  | [] => le_refl _
  | a :: l => by
    by_cases h : p a
    · simp only [List.dropWhile_cons, h, if_true]
      exact Nat.le_succ_of_le (dropWhile_len_le p l)
    · simp [List.dropWhile_cons, h]

/-- Decompose a list into maximal runs of elements satisfying `p`, dropping
the elements in between.  Each run is returned as (first element, rest). -/
def statRuns {α : Type} (p : α → Bool) : List α → List (α × List α)
  | [] => []
  | a :: as =>
    if p a then (a, as.takeWhile p) :: statRuns p (as.dropWhile p)
    else statRuns p as
termination_by l => l.length
decreasing_by
  all_goals simp only [List.length_cons]
  · exact Nat.lt_succ_of_le (dropWhile_len_le _ _)
  · exact Nat.lt_succ_self _

/-- Decompose a list into groups: a group starts at an element `b` and
absorbs the following elements while `joins b` holds of them; the first
element failing `joins b` starts the next group.  This is the "merge while
close to the group's first element" policy shared by the speed-violation and
temperature-breach checks. -/
def grps {α : Type} (joins : α → α → Bool) : List α → List (α × List α)
  | [] => []
  | b :: bs => (b, bs.takeWhile (joins b)) :: grps joins (bs.dropWhile (joins b))
termination_by l => l.length
decreasing_by
  simp only [List.length_cons]
  exact Nat.lt_succ_of_le (dropWhile_len_le _ _)

/-- The grouping loop shared (shape-wise) by `_detect_speed_violations` and
`_detect_temperature_breaches`: `cur` is the current group's first element,
`acc` the running aggregate; `step cur b` is `none` when the timestamp
comparison raised (the element is skipped), otherwise `some` of whether `b`
joins the current group; on a close, `out cur acc` is emitted and `b` starts
a new group with aggregate `ini b`.  After the loop the last group is
emitted. -/
def grpLoop {α β γ : Type} (step : α → α → Option Bool) (upd : β → α → β)
    (ini : α → β) (out : α → β → γ) : List α → α → β → List γ
  | [], cur, acc => [out cur acc]
  | b :: bs, cur, acc =>
    match step cur b with
    | none => grpLoop step upd ini out bs cur acc
    | some true => grpLoop step upd ini out bs cur (upd acc b)
    | some false => out cur acc :: grpLoop step upd ini out bs b (ini b)

theorem grpLoop_grps {α β γ : Type} (step : α → α → Option Bool)
    (joins : α → α → Bool) (upd : β → α → β) (ini : α → β) (out : α → β → γ)
    (P : α → Prop)
    (hstep : ∀ a b, P a → P b → step a b = some (joins a b)) :
    ∀ (bs : List α) (cur : α) (acc : β), P cur → (∀ x ∈ bs, P x) →
      grpLoop step upd ini out bs cur acc =
        out cur (List.foldl upd acc (bs.takeWhile (joins cur))) ::
          (grps joins (bs.dropWhile (joins cur))).map
            (fun g => out g.1 (List.foldl upd (ini g.1) g.2)) := by
  intro bs
  induction bs with
  | nil => intro cur acc _ _; simp [grpLoop, grps]
  | cons b bs ih =>
    intro cur acc hcur hmem
    have hb : P b := hmem b (by simp)
    have hbs : ∀ x ∈ bs, P x := fun x hx => hmem x (by simp [hx])
    by_cases hj : joins cur b
    · simp only [grpLoop, hstep cur b hcur hb, hj]
      rw [ih cur (upd acc b) hcur hbs]
      simp [List.takeWhile_cons, List.dropWhile_cons, hj]
    · have hjf : joins cur b = false := by simpa using hj
      simp only [grpLoop, hstep cur b hcur hb, hjf]
      rw [ih b (ini b) hb hbs]
      simp [List.takeWhile_cons, List.dropWhile_cons, hjf, grps]

/-! ### Source embedding: demonstration checks (`detect_anomalies` lines 51-78) -/

/-- The `status == 'delayed'` demonstration anomaly. -/
def demoDelayedCheck (s : Shipment) : List Anomaly :=
  if s.status = some "delayed" then
    [⟨.delay, .demoDelay, .medium, .str (s.updated_at.getD ""), none, false⟩]
  else []

/-- The hazardous-material demonstration anomaly
(`status == 'in_transit'` and `'hazardous' in str(cargo).lower()`). -/
def demoHazardCheck (s : Shipment) : List Anomaly :=
  if s.status = some "in_transit" ∧ s.cargo.hazardousInStr then
    [⟨.hazardous_material, .demoHazard, .high, .str (s.updated_at.getD ""), none, false⟩]
  else []

/-- The id-suffix demonstration check: `shipment.get('id', '')[-1]` raises
`IndexError` on the empty string; otherwise a low-severity `route_deviation`
anomaly is emitted when the last character is one of '1'..'4'. -/
def demoIdCheck (s : Shipment) : Except PyErr (List Anomaly) :=
  match (s.id.getD "").toList.getLast? with
  | none => .error .indexError
  | some c =>
    .ok (if c = '1' ∨ c = '2' ∨ c = '3' ∨ c = '4' then
      [⟨.route_deviation, .demoRoute, .low, .str (s.updated_at.getD ""), none, false⟩]
    else [])

/-! ### Source embedding: `_detect_route_deviations` (lines 113-191) -/

/-- Model of `(point['latitude'], point['longitude'])`: a missing key raises
`KeyError` (these accesses sit OUTSIDE the `try` in the source). -/
def coordsOf (p : Pt) : Except PyErr (ℚ × ℚ) :=
  match p.latitude, p.longitude with
  | some la, some lo => .ok (la, lo)
  | _, _ => .error .keyError

/-- Inner loop of `_detect_route_deviations`: nearest planned waypoint to an
actual point's coordinates `ac`.  `min_distance` starts at `float('inf')`;
an exception from the distance computation is swallowed and the candidate
skipped. -/
def minDistLoop (dist : ℚ × ℚ → ℚ × ℚ → Option ℚ) (ac : ℚ × ℚ) :
    List Pt → RDist → Option Pt → Except PyErr (RDist × Option Pt)
  | [], m, c => .ok (m, c)
  | q :: qs, m, c =>
    match coordsOf q with
    | .error e => .error e
    | .ok qc =>
      match dist ac qc with
      | none => minDistLoop dist ac qs m c
      | some d =>
        if (RDist.fin d).blt m then minDistLoop dist ac qs (.fin d) (some q)
        else minDistLoop dist ac qs m c

/-- Outer loop of `_detect_route_deviations`: track the actual point whose
nearest-planned-waypoint distance is largest (`max_deviation_km` starts at
0, updated on strict increase, so ties keep the first maximiser). -/
def worstLoop (dist : ℚ × ℚ → ℚ × ℚ → Option ℚ) (planned : List Pt) :
    List Pt → RDist → Option Pt → Option String →
      Except PyErr (RDist × Option Pt × Option String)
  | [], m, mp, mts => .ok (m, mp, mts)
  | a :: as, m, mp, mts =>
    match coordsOf a with
    | .error e => .error e
    | .ok ac =>
      match minDistLoop dist ac planned .inf none with
      | .error e => .error e
      | .ok r =>
        if m.blt r.1 then worstLoop dist planned as r.1 (some a) a.timestamp
        else worstLoop dist planned as m mp mts

/-- Sum of consecutive-waypoint distances along the planned route; a
distance-computation exception skips the segment (contributes 0), but a
missing coordinate key raises. -/
def totalPlannedDistance (dist : ℚ × ℚ → ℚ × ℚ → Option ℚ) :
    List Pt → Except PyErr ℚ
  | [] => .ok 0
  | [_] => .ok 0
  | p :: q :: rest =>
    match coordsOf p with
    | .error e => .error e
    | .ok pc =>
      match coordsOf q with
      | .error e => .error e
      | .ok qc =>
        match totalPlannedDistance dist (q :: rest) with
        | .error e => .error e
        | .ok t => .ok ((dist pc qc).getD 0 + t)

/-- Embedding of `_detect_route_deviations`. -/
def detectRouteDeviations (dist : ℚ × ℚ → ℚ × ℚ → Option ℚ) (s : Shipment) :
    Except PyErr (List Anomaly) :=
  if s.planned_route = [] ∨ s.actual_route = [] then .ok []
  else
    match worstLoop dist s.planned_route s.actual_route (.fin 0) none none with
    | .error e => .error e
    | .ok w =>
      match totalPlannedDistance dist s.planned_route with
      | .error e => .error e
      | .ok total =>
        let pct : RDist :=
          if 0 < total then
            match w.1 with
            | .fin q => .fin (q / total)
            | .inf => .inf
          else .fin 0
        if (RDist.fin route_deviation_threshold).blt pct then
          .ok [⟨.route_deviation, .routeDeviation w.1,
                if (RDist.fin (1/2)).blt pct then .high else .medium,
                orNow w.2.2,
                some ⟨w.2.1.bind Pt.latitude, w.2.1.bind Pt.longitude⟩, false⟩]
        else .ok []

/-! ### Source embedding: `_detect_unusual_stops` (lines 193-268) -/

/-- The running open stop interval. -/
structure OpenStop where
  start : ℚ
  endT : ℚ
  loc : Loc
  deriving DecidableEq, Repr

/-- A closed stop accepted into `stops` (with its `duration_minutes`). -/
structure AccStop where
  start : ℚ
  loc : Loc
  dur : ℚ
  deriving DecidableEq, Repr

/-- Close the running stop: append it when its duration reaches the
threshold. -/
def closeStop (st : OpenStop) (acc : List AccStop) : List AccStop :=
  if unusual_stop_threshold_minutes ≤ (st.endT - st.start) / 60 then
    acc ++ [⟨st.start, st.loc, (st.endT - st.start) / 60⟩]
  else acc

/-- The per-point loop of `_detect_unusual_stops`.  Any exception inside the
body (missing/unparsable timestamp, missing coordinate at stop start) skips
the point, leaving the state unchanged. -/
def stopLoop (parse : String → Option ℚ) :
    List Pt → Option OpenStop → List AccStop → List AccStop × Option OpenStop
  | [], cur, acc => (acc, cur)
  | p :: ps, cur, acc =>
    match p.timestamp.bind parse with
    | none => stopLoop parse ps cur acc
    | some t =>
      if p.speed.getD 0 < 5 then
        match cur with
        | none =>
          match p.latitude, p.longitude with
          | some la, some lo => stopLoop parse ps (some ⟨t, t, ⟨some la, some lo⟩⟩) acc
          | _, _ => stopLoop parse ps none acc
        | some st => stopLoop parse ps (some ⟨st.start, t, st.loc⟩) acc
      else
        match cur with
        | some st => stopLoop parse ps none (closeStop st acc)
        | none => stopLoop parse ps none acc

/-- Run the stop loop, then close the stop still open when the input ends
(the post-loop check of the source). -/
def stopLoopFin (parse : String → Option ℚ) (pts : List Pt)
    (cur : Option OpenStop) (acc : List AccStop) : List AccStop :=
  let r := stopLoop parse pts cur acc
  match r.2 with
  | some st => closeStop st r.1
  | none => r.1

/-- The anomaly built from one accepted stop. -/
def mkStopAnomaly (st : AccStop) : Anomaly :=
  ⟨.unusual_stop, .unusualStop st.dur, if 60 < st.dur then .high else .medium,
   .iso st.start, some st.loc, false⟩

/-- Embedding of `_detect_unusual_stops`: fewer than 2 points returns
nothing; a sort-key failure (any missing or unparsable timestamp) aborts the
whole check; otherwise walk the stably sorted route, close the final open
stop, and map the accepted stops to anomalies. -/
def detectUnusualStops (parse : String → Option ℚ) (s : Shipment) : List Anomaly :=
  let route := s.actual_route
  if route.length < 2 then []
  else if route.all (fun p => (p.timestamp.bind parse).isSome) then
    (stopLoopFin parse
      (sortByT (fun p => (p.timestamp.bind parse).getD 0) route) none []).map
      mkStopAnomaly
  else []

/-! ### Source embedding: `_detect_speed_violations` (lines 270-348) -/

/-- A violation record collected by `_detect_speed_violations`
(`timestamp` defaults to `datetime.now().isoformat()`). -/
structure SpeedViol where
  speed : ℚ
  ts : String
  loc : Loc
  deriving DecidableEq, Repr

/-- Collect the points with `speed > speed_threshold`; a missing coordinate
key raises inside the per-point `try` and the point is skipped. -/
def collectViolations (nowS : String) : List Pt → List SpeedViol
  | [] => []
  | p :: ps =>
    if speed_threshold < p.speed.getD 0 then
      match p.latitude, p.longitude with
      | some la, some lo =>
        ⟨p.speed.getD 0, p.timestamp.getD nowS, ⟨some la, some lo⟩⟩ ::
          collectViolations nowS ps
      | _, _ => collectViolations nowS ps
    else collectViolations nowS ps

/-- Timestamp comparison in the speed grouping loop: `none` when either
timestamp fails to parse (the violation is skipped), otherwise whether the
new violation is within 5 minutes of the current group's FIRST violation. -/
def speedStep (parse : String → Option ℚ) (cur b : SpeedViol) : Option Bool :=
  match parse cur.ts, parse b.ts with
  | some tc, some tb => some (decide ((tb - tc) / 60 ≤ 5))
  | _, _ => none

/-- The anomaly emitted for one speed-violation group. -/
def mkSpeedAnomaly (cur : SpeedViol) (maxSpeed : ℚ) : Anomaly :=
  ⟨.speed_violation, .speedViolation maxSpeed,
   if speed_threshold * (6/5) < maxSpeed then .high else .medium,
   .str cur.ts, some cur.loc, false⟩

/-- Embedding of `_detect_speed_violations`. -/
def detectSpeedViolations (parse : String → Option ℚ) (nowS : String)
    (s : Shipment) : List Anomaly :=
  if s.actual_route = [] then []
  else
    match collectViolations nowS s.actual_route with
    | [] => []
    | v :: vs =>
      grpLoop (speedStep parse) (fun m w => if m < w.speed then w.speed else m)
        SpeedViol.speed mkSpeedAnomaly vs v v.speed

/-! ### Source embedding: `_detect_potential_fraud` (lines 350-419) -/

/-- Python `round(x, 3)` (round half to even), on exact rationals. -/
def roundHalfEven (q : ℚ) : ℤ :=
  let f := ⌊q⌋
  let r := q - (f : ℚ)
  if r < 1/2 then f
  else if 1/2 < r then f + 1
  else if f % 2 = 0 then f else f + 1

/-- Round to 3 decimal places. -/
def round3 (q : ℚ) : ℚ := (roundHalfEven (q * 1000) : ℚ) / 1000

/-- The ~100 m area key of a point: lat/lon rounded to 3 decimals. -/
def keyOf (p : Pt) : ℚ × ℚ := (round3 (p.latitude.getD 0), round3 (p.longitude.getD 0))

/-- The route-revisit scan: stop at the first point whose area key was
already visited and emit one anomaly; a missing coordinate key raises inside
the `try` wrapping the whole loop, aborting the scan with the anomalies
collected so far (necessarily none). -/
def revisitScan (nowS : String) : List Pt → List (ℚ × ℚ) → List Anomaly
  | [], _ => []
  | p :: ps, visited =>
    match p.latitude, p.longitude with
    | some la, some lo =>
      let key := (round3 la, round3 lo)
      if key ∈ visited then
        [⟨.potential_fraud, .fraudRevisit, .medium, .str (p.timestamp.getD nowS),
          some ⟨some la, some lo⟩, false⟩]
      else revisitScan nowS ps (key :: visited)
    | _, _ => []

/-- Embedding of `_detect_potential_fraud` in baseline-free mode: the cargo-value
sub-check is skipped by the `self.historical_data is not None` guard, and
the route-revisit sub-check runs only on routes longer than 2 points. -/
def detectPotentialFraud (nowS : String) (s : Shipment) : List Anomaly :=
  if 2 < s.actual_route.length then revisitScan nowS s.actual_route []
  else []

/-! ### Source embedding: `_detect_delays` (lines 421-514) -/

/-- The projected-delay branch for in-transit, not-yet-overdue shipments.
Every failure inside it (unsortable route, missing coordinates, missing
destination, distance exception) is caught and yields no anomaly. -/
def projectedDelayCheck (parse : String → Option ℚ)
    (dist : ℚ × ℚ → ℚ × ℚ → Option ℚ) (est : ℚ) (s : Shipment) : List Anomaly :=
  if s.actual_route = [] then []
  else if s.actual_route.all (fun p => (p.timestamp.bind parse).isSome) then
    match (sortByT (fun p => (p.timestamp.bind parse).getD 0) s.actual_route).getLast? with
    | none => []
    | some latest =>
      match latest.latitude, latest.longitude, s.destination with
      | some la, some lo, some (some dc) =>
        match dist (la, lo) dc with
        | none => []
        | some d =>
          let speedPts := s.actual_route.filter (fun p => p.speed.isSome)
          let avg : ℚ :=
            if speedPts = [] then 60
            else (speedPts.map (fun p => p.speed.getD 0)).sum / (speedPts.length : ℚ)
          if 0 < avg then
            let projected : ℚ := (latest.timestamp.bind parse).getD 0 + (d / avg) * 3600
            if est < projected then
              let pd := (projected - est) / 3600
              if 1 < pd then
                [⟨.delay, .delayProjected pd, if 8 < pd then .medium else .low,
                  .now, none, false⟩]
              else []
            else []
          else []
      | _, _, _ => []
  else []

/-- Embedding of `_detect_delays`: requires a parsable `estimated_arrival_time`, then
branches on status.  The whole body is wrapped in a `try`, so parse failures
yield no anomaly rather than raising. -/
def detectDelays (parse : String → Option ℚ)
    (dist : ℚ × ℚ → ℚ × ℚ → Option ℚ) (now : ℚ) (s : Shipment) : List Anomaly :=
  match s.estimated_arrival_time with
  | none => []
  | some estS =>
    match parse estS with
    | none => []
    | some est =>
      if s.status = some "delivered" ∧ s.actual_arrival_time.isSome then
        match s.actual_arrival_time.bind parse with
        | none => []
        | some act =>
          let dh := (act - est) / 3600
          if 2 < dh then
            [⟨.delay, .delayDelivered dh,
              if 24 < dh then .high else if 8 < dh then .medium else .low,
              .iso act, none, true⟩]
          else []
      else if s.status = some "in_transit" then
        if est < now then
          let dh := (now - est) / 3600
          [⟨.delay, .delayInTransit dh,
            if 24 < dh then .high else if 8 < dh then .medium else .low,
            .now, none, false⟩]
        else projectedDelayCheck parse dist est s
      else []

/-! ### Source embedding: `_detect_temperature_breaches` (lines 516-616) -/

/-- Breach kind: below `min` or above `max`. -/
inductive BType
  | too_cold
  | too_hot
  deriving DecidableEq, Repr

/-- A breach record collected from a route point carrying a temperature. -/
structure Breach where
  temp : ℚ
  ts : String
  loc : Loc
  btype : BType
  deriving DecidableEq, Repr

/-- Collect the breaching readings; building a breach record accesses
`point['latitude']` with NO surrounding `try`, so a breaching point with a
missing coordinate raises `KeyError` out of the whole check. -/
def collectBreaches (nowS : String) (mi ma : ℚ) :
    List Pt → Except PyErr (List Breach)
  | [] => .ok []
  | p :: ps =>
    match p.temperature with
    | none => collectBreaches nowS mi ma ps
    | some t =>
      if t < mi ∨ ma < t then
        match p.latitude, p.longitude with
        | some la, some lo =>
          match collectBreaches nowS mi ma ps with
          | .error e => .error e
          | .ok rest =>
            .ok (⟨t, p.timestamp.getD nowS, ⟨some la, some lo⟩,
                  if t < mi then .too_cold else .too_hot⟩ :: rest)
        | _, _ => .error .keyError
      else collectBreaches nowS mi ma ps

/-- Timestamp-and-type comparison in the temperature grouping loop: `none`
when either timestamp fails to parse (the breach is skipped), otherwise
whether the breach is within 30 minutes of the group's FIRST breach and of
the same breach type. -/
def tempStep (parse : String → Option ℚ) (cur b : Breach) : Option Bool :=
  match parse cur.ts, parse b.ts with
  | some tc, some tb => some (decide ((tb - tc) / 60 ≤ 30 ∧ b.btype = cur.btype))
  | _, _ => none

/-- Aggregate carried by the temperature grouping loop: the group's breach
type and the extreme temperatures recorded so far. -/
structure TempAgg where
  btype : BType
  minRec : ℚ
  maxRec : ℚ
  deriving DecidableEq, Repr

/-- Aggregate for a fresh group started at `b`. -/
def tempIni (b : Breach) : TempAgg := ⟨b.btype, b.temp, b.temp⟩

/-- The `min_temp_recorded` / `max_temp_recorded` update (only the extreme
matching the group's type is tracked). -/
def tempUpd (acc : TempAgg) (b : Breach) : TempAgg :=
  if acc.btype = .too_cold then ⟨acc.btype, min acc.minRec b.temp, acc.maxRec⟩
  else ⟨acc.btype, acc.minRec, max acc.maxRec b.temp⟩

/-- The anomaly emitted for one temperature-breach group (always severity
high; the description reports the group's extreme and the configured
bound). -/
def tempOut (mi ma : ℚ) (cur : Breach) (acc : TempAgg) : Anomaly :=
  ⟨.temperature_breach,
   (match acc.btype with
    | .too_cold => .tempLow acc.minRec mi
    | .too_hot => .tempHigh acc.maxRec ma),
   .high, .str cur.ts, some cur.loc, false⟩

/-- Embedding of `_detect_temperature_breaches`. -/
def detectTemperatureBreaches (parse : String → Option ℚ) (nowS : String)
    (s : Shipment) : Except PyErr (List Anomaly) :=
  if ¬ s.cargo.temperature_controlled then .ok []
  else
    match s.cargo.temperature_range with
    | none => .ok []
    | some (mi, ma) =>
      match collectBreaches nowS mi ma s.actual_route with
      | .error e => .error e
      | .ok [] => .ok []
      | .ok (b :: bs) =>
        .ok (grpLoop (tempStep parse) tempUpd tempIni (tempOut mi ma) bs b (tempIni b))

/-! ### Source embedding: `detect_anomalies` and `analyze_shipment` -/

/-- The guarded temperature pass as called from `detect_anomalies` (line
106): it only runs when `cargo.temperature_controlled` is truthy. -/
def tempPart (parse : String → Option ℚ) (nowS : String) (s : Shipment) :
    Except PyErr (List Anomaly) :=
  if s.cargo.temperature_controlled then detectTemperatureBreaches parse nowS s
  else .ok []

/-- Embedding of `ShipmentAnomalyDetector.detect_anomalies` (baseline-free
mode): run the demonstration checks and the six detection passes in source
order and concatenate; an uncaught exception from any of them propagates. -/
def detect_anomalies (parse : String → Option ℚ)
    (dist : ℚ × ℚ → ℚ × ℚ → Option ℚ) (now : ℚ) (nowS : String)
    (s : Shipment) : Except PyErr (List Anomaly) :=
  let demo1 := demoDelayedCheck s
  let demo2 := demoHazardCheck s
  match demoIdCheck s with
  | .error e => .error e
  | .ok demo3 =>
    match detectRouteDeviations dist s with
    | .error e => .error e
    | .ok rd =>
      let st := detectUnusualStops parse s
      let sp := detectSpeedViolations parse nowS s
      let fr := detectPotentialFraud nowS s
      let dl := detectDelays parse dist now s
      match tempPart parse nowS s with
      | .error e => .error e
      | .ok tb => .ok (demo1 ++ demo2 ++ demo3 ++ rd ++ st ++ sp ++ fr ++ dl ++ tb)

/-- The record returned by `analyze_shipment` (the added fields; the echoed
input fields are untouched copies). -/
structure AnalyzeResult where
  anomalies : List Anomaly
  anomaly_count : ℕ
  has_high_severity_anomalies : Bool
  deriving DecidableEq, Repr

/-- Embedding of `analyze_shipment` on an already-parsed shipment mapping. -/
def analyze_shipment (parse : String → Option ℚ)
    (dist : ℚ × ℚ → ℚ × ℚ → Option ℚ) (now : ℚ) (nowS : String)
    (s : Shipment) : Except PyErr AnalyzeResult :=
  match detect_anomalies parse dist now nowS s with
  | .error e => .error e
  | .ok anoms =>
    .ok ⟨anoms, anoms.length, anoms.any (fun a => a.severity == .high)⟩

/-! ### Totality lemmas: which checks can and cannot raise -/

theorem getLast?_of_ne_nil {α : Type} : ∀ l : List α, l ≠ [] → ∃ c, l.getLast? = some c
  | [], h => absurd rfl h
  | [a], _ => ⟨a, rfl⟩
  | a :: b :: t, _ => by
    obtain ⟨c, hc⟩ := getLast?_of_ne_nil (b :: t) (by simp)
    exact ⟨c, by rw [List.getLast?_cons_cons, hc]⟩

/-- The coordinates of a well-formed point. -/
def cpt (p : Pt) : ℚ × ℚ := (p.latitude.getD 0, p.longitude.getD 0)

theorem coordsOf_ok (p : Pt) (h1 : p.latitude.isSome) (h2 : p.longitude.isSome) :
    coordsOf p = .ok (cpt p) := by
  obtain ⟨la, hla⟩ := Option.isSome_iff_exists.mp h1
  obtain ⟨lo, hlo⟩ := Option.isSome_iff_exists.mp h2
  simp [coordsOf, cpt, hla, hlo]

theorem exc_ite_ok {ε α : Type} (c : Prop) [Decidable c] (a b : α) :
    ∃ l, (if c then Except.ok (ε := ε) a else .ok b) = .ok l := by
  by_cases h : c
  · exact ⟨a, by rw [if_pos h]⟩
  · exact ⟨b, by rw [if_neg h]⟩

theorem ite_ok_of {ε α : Type} {c : Prop} [Decidable c] {A B : Except ε α}
    (hA : ∃ r, A = .ok r) (hB : ∃ r, B = .ok r) :
    ∃ r, (if c then A else B) = .ok r := by
  by_cases h : c
  · simpa [h] using hA
  · simpa [h] using hB

theorem minDistLoop_ok (dist : ℚ × ℚ → ℚ × ℚ → Option ℚ) (ac : ℚ × ℚ) :
    ∀ (qs : List Pt) (m : RDist) (c : Option Pt),
      (∀ q ∈ qs, q.latitude.isSome ∧ q.longitude.isSome) →
      ∃ r, minDistLoop dist ac qs m c = .ok r
  | [], m, c, _ => ⟨(m, c), rfl⟩
  | q :: qs, m, c, h => by
    obtain ⟨la, hla⟩ := Option.isSome_iff_exists.mp (h q (by simp)).1
    obtain ⟨lo, hlo⟩ := Option.isSome_iff_exists.mp (h q (by simp)).2
    have hqs : ∀ x ∈ qs, x.latitude.isSome ∧ x.longitude.isSome :=
      fun x hx => h x (by simp [hx])
    simp only [minDistLoop, coordsOf, hla, hlo]
    cases hd : dist ac (la, lo) with
    | none => exact minDistLoop_ok dist ac qs m c hqs
    | some d =>
      exact ite_ok_of (minDistLoop_ok dist ac qs (.fin d) (some q) hqs)
        (minDistLoop_ok dist ac qs m c hqs)

theorem worstLoop_ok (dist : ℚ × ℚ → ℚ × ℚ → Option ℚ) (planned : List Pt)
    (hp : ∀ q ∈ planned, q.latitude.isSome ∧ q.longitude.isSome) :
    ∀ (as : List Pt) (m : RDist) (mp : Option Pt) (mts : Option String),
      (∀ a ∈ as, a.latitude.isSome ∧ a.longitude.isSome) →
      ∃ r, worstLoop dist planned as m mp mts = .ok r
  | [], m, mp, mts, _ => ⟨(m, mp, mts), rfl⟩
  | a :: as, m, mp, mts, h => by
    obtain ⟨la, hla⟩ := Option.isSome_iff_exists.mp (h a (by simp)).1
    obtain ⟨lo, hlo⟩ := Option.isSome_iff_exists.mp (h a (by simp)).2
    have has : ∀ x ∈ as, x.latitude.isSome ∧ x.longitude.isSome :=
      fun x hx => h x (by simp [hx])
    obtain ⟨r, hr⟩ := minDistLoop_ok dist (la, lo) planned .inf none hp
    simp only [worstLoop, coordsOf, hla, hlo, hr]
    exact ite_ok_of (worstLoop_ok dist planned hp as r.1 (some a) a.timestamp has)
      (worstLoop_ok dist planned hp as m mp mts has)

theorem totalPlannedDistance_ok (dist : ℚ × ℚ → ℚ × ℚ → Option ℚ) :
    ∀ pl : List Pt, (∀ p ∈ pl, p.latitude.isSome ∧ p.longitude.isSome) →
      ∃ t, totalPlannedDistance dist pl = .ok t
  | [], _ => ⟨0, rfl⟩
  | [_], _ => ⟨0, rfl⟩
  | p :: q :: rest, h => by
    obtain ⟨pla, hpla⟩ := Option.isSome_iff_exists.mp (h p (by simp)).1
    obtain ⟨plo, hplo⟩ := Option.isSome_iff_exists.mp (h p (by simp)).2
    obtain ⟨qla, hqla⟩ := Option.isSome_iff_exists.mp (h q (by simp)).1
    obtain ⟨qlo, hqlo⟩ := Option.isSome_iff_exists.mp (h q (by simp)).2
    have hrest : ∀ x ∈ q :: rest, x.latitude.isSome ∧ x.longitude.isSome :=
      fun x hx => h x (by simp at hx ⊢; tauto)
    obtain ⟨t, ht⟩ := totalPlannedDistance_ok dist (q :: rest) hrest
    exact ⟨(dist (pla, plo) (qla, qlo)).getD 0 + t,
      by simp only [totalPlannedDistance, coordsOf, hpla, hplo, hqla, hqlo, ht]⟩

theorem detectRouteDeviations_ok (dist : ℚ × ℚ → ℚ × ℚ → Option ℚ) (s : Shipment)
    (hc : ∀ p ∈ s.planned_route ++ s.actual_route,
      p.latitude.isSome ∧ p.longitude.isSome) :
    ∃ l, detectRouteDeviations dist s = .ok l := by
  have hcp : ∀ p ∈ s.planned_route, p.latitude.isSome ∧ p.longitude.isSome :=
    fun p hp => hc p (by simp [hp])
  have hca : ∀ p ∈ s.actual_route, p.latitude.isSome ∧ p.longitude.isSome :=
    fun p hp => hc p (by simp [hp])
  by_cases he : s.planned_route = [] ∨ s.actual_route = []
  · exact ⟨[], by simp [detectRouteDeviations, he]⟩
  · obtain ⟨w, hw⟩ :=
      worstLoop_ok dist s.planned_route hcp s.actual_route (.fin 0) none none hca
    obtain ⟨t, ht⟩ := totalPlannedDistance_ok dist s.planned_route hcp
    simp only [detectRouteDeviations, if_neg he, hw, ht]
    exact exc_ite_ok _ _ _

theorem collectBreaches_ok (nowS : String) (mi ma : ℚ) :
    ∀ pts : List Pt, (∀ p ∈ pts, p.latitude.isSome ∧ p.longitude.isSome) →
      ∃ l, collectBreaches nowS mi ma pts = .ok l
  | [], _ => ⟨[], rfl⟩
  | p :: ps, h => by
    have hp := h p (by simp)
    have hps : ∀ x ∈ ps, x.latitude.isSome ∧ x.longitude.isSome :=
      fun x hx => h x (by simp [hx])
    obtain ⟨l, hl⟩ := collectBreaches_ok nowS mi ma ps hps
    obtain ⟨la, hla⟩ := Option.isSome_iff_exists.mp hp.1
    obtain ⟨lo, hlo⟩ := Option.isSome_iff_exists.mp hp.2
    cases ht : p.temperature with
    | none => exact ⟨l, by simp only [collectBreaches, ht, hl]⟩
    | some t =>
      by_cases hb : t < mi ∨ ma < t
      · refine ⟨⟨t, p.timestamp.getD nowS, ⟨some la, some lo⟩,
          if t < mi then .too_cold else .too_hot⟩ :: l, ?_⟩
        simp only [collectBreaches, ht, hla, hlo, hb, if_true, hl]
      · exact ⟨l, by simp only [collectBreaches, ht, hb, if_false, hl]⟩

theorem detectTemperatureBreaches_ok (parse : String → Option ℚ) (nowS : String)
    (s : Shipment)
    (hc : ∀ p ∈ s.actual_route, p.latitude.isSome ∧ p.longitude.isSome) :
    ∃ l, detectTemperatureBreaches parse nowS s = .ok l := by
  cases htc : s.cargo.temperature_controlled with
  | false => exact ⟨[], by simp [detectTemperatureBreaches, htc]⟩
  | true =>
    cases hr : s.cargo.temperature_range with
    | none => exact ⟨[], by simp [detectTemperatureBreaches, htc, hr]⟩
    | some r =>
      obtain ⟨mi, ma⟩ := r
      obtain ⟨bl, hbl⟩ := collectBreaches_ok nowS mi ma s.actual_route hc
      cases bl with
      | nil => exact ⟨[], by simp [detectTemperatureBreaches, htc, hr, hbl]⟩
      | cons b bs =>
        refine ⟨grpLoop (tempStep parse) tempUpd tempIni (tempOut mi ma) bs b (tempIni b), ?_⟩
        simp [detectTemperatureBreaches, htc, hr, hbl]

/-! ### Claim C1 (corrected) -/

/-- Claim C1, amended: for every shipment whose id is non-empty and whose
planned/actual route points all carry `latitude` and `longitude` keys,
`detect_anomalies` returns an anomaly list without raising, whatever
unparsable timestamps or missing optional fields the telemetry contains
(such points are skipped inside the individual checks).  The original
claim's further case of a point missing a coordinate field is NOT handled:
it raises (see the counterexample). -/
theorem claim1_amended_no_raise (parse : String → Option ℚ)
    (dist : ℚ × ℚ → ℚ × ℚ → Option ℚ) (now : ℚ) (nowS : String) (s : Shipment)
    (hid : s.id.getD "" ≠ "")
    (hc : ∀ p ∈ s.planned_route ++ s.actual_route,
      p.latitude.isSome ∧ p.longitude.isSome) :
    ∃ l, detect_anomalies parse dist now nowS s = .ok l := by
  have hdata : (s.id.getD "").toList ≠ [] := by
    intro h
    exact hid (by
      have : s.id.getD "" = "" := by
        apply String.ext
        simpa [String.toList] using h
      exact this)
  obtain ⟨c, hc3⟩ := getLast?_of_ne_nil _ hdata
  have hdemo3 : ∃ d3, demoIdCheck s = .ok d3 := by
    unfold demoIdCheck
    rw [hc3]
    exact ⟨_, rfl⟩
  obtain ⟨d3, hd3⟩ := hdemo3
  obtain ⟨rd, hrd⟩ := detectRouteDeviations_ok dist s hc
  have hca : ∀ p ∈ s.actual_route, p.latitude.isSome ∧ p.longitude.isSome :=
    fun p hp => hc p (by simp [hp])
  have htb : ∃ tb, tempPart parse nowS s = .ok tb := by
    by_cases htc : s.cargo.temperature_controlled
    · simpa [tempPart, htc] using detectTemperatureBreaches_ok parse nowS s hca
    · exact ⟨[], by simp [tempPart, htc]⟩
  obtain ⟨tb, htb⟩ := htb
  refine ⟨demoDelayedCheck s ++ demoHazardCheck s ++ d3 ++ rd ++
    detectUnusualStops parse s ++ detectSpeedViolations parse nowS s ++
    detectPotentialFraud nowS s ++ detectDelays parse dist now s ++ tb, ?_⟩
  simp only [detect_anomalies, hd3, hrd, htb]

/-- Input refuting claim C1 as stated: well-formed id and planned route, but
the single actual-route point is missing its `latitude` key. -/
def cex1Ship : Shipment :=
  { id := some "A5",
    planned_route := [{ latitude := some 0, longitude := some 0 }],
    actual_route := [{ longitude := some 1 }] }

/-- Claim C1, counterexample: on `cex1Ship` — a shipment whose only
malformation is an actual-route point missing one coordinate field —
`detect_anomalies` raises `KeyError` instead of returning an anomaly list
(the coordinate accesses in `_detect_route_deviations` sit outside the
`try`). -/
theorem claim1_counterexample :
    detect_anomalies (fun _ => none) (fun _ _ => none) 0 "now" cex1Ship =
      .error .keyError := by
  rfl

/-- Claim C1 witness: a shipment with an unparsable timestamp and missing
optional fields still gets an anomaly list. -/
theorem claim1_witness :
    ∃ l, detect_anomalies (fun _ => none) (fun _ _ => none) 0 "now"
      { id := some "A7",
        planned_route := [{ latitude := some 0, longitude := some 0 }],
        actual_route := [{ latitude := some 1, longitude := some 1,
                           timestamp := some "garbage" },
                         { latitude := some 2, longitude := some 2 }] } = .ok l :=
  claim1_amended_no_raise _ _ _ _ _ (by decide) (by decide)

/-! ### Claim C4 (confirmed) -/

/-- Claim C4: for a delivered shipment with parsable estimated and actual
arrival times, the delay check emits a `delay` anomaly iff the delay
strictly exceeds 2 hours; on emission `resolved` is true, the timestamp is
the actual arrival instant, and severity is high above 24 h, medium above
8 h, low otherwise. -/
theorem claim4_delivered_delay (parse : String → Option ℚ)
    (dist : ℚ × ℚ → ℚ × ℚ → Option ℚ) (now : ℚ) (s : Shipment)
    (estS actS : String) (est act : ℚ)
    (hst : s.status = some "delivered")
    (hes : s.estimated_arrival_time = some estS) (hep : parse estS = some est)
    (has : s.actual_arrival_time = some actS) (hap : parse actS = some act) :
    detectDelays parse dist now s =
      (if 2 < (act - est) / 3600 then
        [⟨.delay, .delayDelivered ((act - est) / 3600),
          if 24 < (act - est) / 3600 then .high
          else if 8 < (act - est) / 3600 then .medium else .low,
          .iso act, none, true⟩]
      else []) := by
  simp only [detectDelays, hes, hep, hst, has, Option.some_bind, hap,
    Option.isSome_some, and_true, if_true, Option.bind_some]

/-- Claim C4 witness: delivered 3 hours late emits one low-severity resolved
delay anomaly; the boundary condition `2 < 3` is discharged concretely. -/
theorem claim4_witness :
    detectDelays (fun t => if t = "E" then some 0 else if t = "A" then some 10800 else none)
      (fun _ _ => none) 0
      { status := some "delivered", estimated_arrival_time := some "E",
        actual_arrival_time := some "A" } =
      (if 2 < ((10800 : ℚ) - 0) / 3600 then
        [⟨.delay, .delayDelivered (((10800 : ℚ) - 0) / 3600),
          if 24 < ((10800 : ℚ) - 0) / 3600 then .high
          else if 8 < ((10800 : ℚ) - 0) / 3600 then .medium else .low,
          .iso 10800, none, true⟩]
      else []) :=
  claim4_delivered_delay _ _ _ _ "E" "A" 0 10800 rfl rfl (by decide) rfl (by decide)

/-! ### Claim C6 (confirmed) -/

/-- Claim C6: if any actual-route point has a missing or unparsable
timestamp, the unusual-stop check contributes no anomalies at all, while
every other pass still runs independently: any successful result of
`detect_anomalies` is exactly the concatenation of the other passes'
outputs, with no unusual-stop component. -/
theorem claim6_bad_timestamp_aborts_stop_check (parse : String → Option ℚ)
    (dist : ℚ × ℚ → ℚ × ℚ → Option ℚ) (now : ℚ) (nowS : String) (s : Shipment)
    (h : ∃ p ∈ s.actual_route, p.timestamp.bind parse = none) :
    detectUnusualStops parse s = [] ∧
    ∀ l, detect_anomalies parse dist now nowS s = .ok l →
      ∃ demo3 rd tb,
        demoIdCheck s = .ok demo3 ∧
        detectRouteDeviations dist s = .ok rd ∧
        tempPart parse nowS s = .ok tb ∧
        l = demoDelayedCheck s ++ demoHazardCheck s ++ demo3 ++ rd ++
            detectSpeedViolations parse nowS s ++ detectPotentialFraud nowS s ++
            detectDelays parse dist now s ++ tb := by
  have hall : s.actual_route.all (fun p => (p.timestamp.bind parse).isSome) = false := by
    obtain ⟨p, hp, hn⟩ := h
    refine List.all_eq_false.mpr ⟨p, hp, ?_⟩
    simp [hn]
  have hstops : detectUnusualStops parse s = [] := by
    by_cases hl : s.actual_route.length < 2
    · simp [detectUnusualStops, hl]
    · simp [detectUnusualStops, hl, hall]
  refine ⟨hstops, ?_⟩
  intro l hl
  cases h3 : demoIdCheck s with
  | error e =>
    simp only [detect_anomalies, h3] at hl
    exact Except.noConfusion hl
  | ok demo3 =>
    cases hrd : detectRouteDeviations dist s with
    | error e =>
      simp only [detect_anomalies, h3, hrd] at hl
      exact Except.noConfusion hl
    | ok rd =>
      cases htb : tempPart parse nowS s with
      | error e =>
        simp only [detect_anomalies, h3, hrd, htb] at hl
        exact Except.noConfusion hl
      | ok tb =>
        refine ⟨demo3, rd, tb, rfl, rfl, rfl, ?_⟩
        simp only [detect_anomalies, h3, hrd, htb, Except.ok.injEq] at hl
        rw [← hl, hstops]
        simp

/-- The shipment used in the C6 witness: both points carry timestamps the
witness `parse` cannot parse. -/
def w6Ship : Shipment :=
  { id := some "B6",
    actual_route := [{ latitude := some 0, longitude := some 0,
                       timestamp := some "bad" },
                     { latitude := some 0, longitude := some 0,
                       timestamp := some "bad2" }] }

/-- Claim C6 witness: one point with an unparsable timestamp aborts the
unusual-stop pass and the rest of `detect_anomalies` still decomposes. -/
theorem claim6_witness :
    detectUnusualStops (fun _ => none) w6Ship = [] ∧
    ∀ l, detect_anomalies (fun _ => none) (fun _ _ => none) 0 "now" w6Ship = .ok l →
      ∃ demo3 rd tb,
        demoIdCheck w6Ship = .ok demo3 ∧
        detectRouteDeviations (fun _ _ => none) w6Ship = .ok rd ∧
        tempPart (fun _ => none) "now" w6Ship = .ok tb ∧
        l = demoDelayedCheck w6Ship ++ demoHazardCheck w6Ship ++ demo3 ++ rd ++
            detectSpeedViolations (fun _ => none) "now" w6Ship ++
            detectPotentialFraud "now" w6Ship ++
            detectDelays (fun _ => none) (fun _ _ => none) 0 w6Ship ++ tb :=
  claim6_bad_timestamp_aborts_stop_check _ _ _ _ _ (by decide)

/-! ### Claim C9 (confirmed) -/

/-- Claim C9: whenever `analyze_shipment` returns a result, its
`anomaly_count` equals the length of its anomaly list and
`has_high_severity_anomalies` holds iff some anomaly has severity high. -/
theorem claim9_result_invariants (parse : String → Option ℚ)
    (dist : ℚ × ℚ → ℚ × ℚ → Option ℚ) (now : ℚ) (nowS : String) (s : Shipment)
    (r : AnalyzeResult)
    (h : analyze_shipment parse dist now nowS s = .ok r) :
    r.anomaly_count = r.anomalies.length ∧
      (r.has_high_severity_anomalies = true ↔
        ∃ a ∈ r.anomalies, a.severity = .high) := by
  unfold analyze_shipment at h
  cases hd : detect_anomalies parse dist now nowS s with
  | error e => rw [hd] at h; cases h
  | ok l =>
    rw [hd] at h
    cases h
    refine ⟨rfl, ?_⟩
    simp [List.any_eq_true]

/-- Claim C9 witness: a trivial shipment is analyzed successfully and the
theorem applies to its result. -/
theorem claim9_witness :
    (⟨[], 0, false⟩ : AnalyzeResult).anomaly_count =
        (⟨[], 0, false⟩ : AnalyzeResult).anomalies.length ∧
      ((⟨[], 0, false⟩ : AnalyzeResult).has_high_severity_anomalies = true ↔
        ∃ a ∈ (⟨[], 0, false⟩ : AnalyzeResult).anomalies, a.severity = .high) :=
  claim9_result_invariants (fun _ => none) (fun _ _ => none) 0 "n"
    { id := some "Z9" } ⟨[], 0, false⟩ (by rfl)

/-! ### Claim C10 (confirmed) -/

/-- Claim C10: a shipment whose `id` key is absent or maps to the empty
string makes `detect_anomalies` raise `IndexError` from the demonstration
id-suffix check, so no anomaly list is returned, whatever the other
fields. -/
theorem claim10_empty_id_raises (parse : String → Option ℚ)
    (dist : ℚ × ℚ → ℚ × ℚ → Option ℚ) (now : ℚ) (nowS : String) (s : Shipment)
    (hid : s.id.getD "" = "") :
    detect_anomalies parse dist now nowS s = .error .indexError := by
  have h : demoIdCheck s = .error .indexError := by
    unfold demoIdCheck
    rw [hid]
    rfl
  rw [detect_anomalies, h]

/-- Claim C10 witness: the well-formed shipment with no `id` key raises. -/
theorem claim10_witness :
    detect_anomalies (fun _ => none) (fun _ _ => none) 0 "now"
      { status := some "delivered" } = .error .indexError :=
  claim10_empty_id_raises _ _ _ _ _ rfl

/-! ### Claim C3 (corrected): speed-violation grouping -/

theorem foldl_gt_eq_foldl_max {α : Type} (f : α → ℚ) :
    ∀ (l : List α) (m : ℚ),
      List.foldl (fun acc x => if acc < f x then f x else acc) m l =
      List.foldl (fun acc x => max acc (f x)) m l
  | [], _ => rfl
  | x :: l, m => by
    have h : (if m < f x then f x else m) = max m (f x) := by
      by_cases h : m < f x
      · rw [if_pos h, max_eq_right h.le]
      · rw [if_neg h, max_eq_left (le_of_not_lt h)]
    rw [List.foldl_cons, List.foldl_cons, h]
    exact foldl_gt_eq_foldl_max f l (max m (f x))

/-- The maximum speed over a (first element, rest) violation group. -/
def groupMaxSpeed (g : SpeedViol × List SpeedViol) : ℚ :=
  List.foldl (fun m w => max m w.speed) g.1.speed g.2

/-- Three over-threshold points, chronologically ordered, each 4 minutes
after the previous one (timestamps 0 s, 240 s, 480 s under
`cex3Parse`). -/
def cex3Parse : String → Option ℚ := fun t =>
  if t = "t0" then some 0 else if t = "t4" then some 240
  else if t = "t8" then some 480 else none

/-- The shipment refuting claim C3 as stated. -/
def cex3Ship : Shipment :=
  { actual_route :=
      [{ latitude := some 0, longitude := some 0, timestamp := some "t0",
         speed := some 121 },
       { latitude := some 1, longitude := some 1, timestamp := some "t4",
         speed := some 122 },
       { latitude := some 2, longitude := some 2, timestamp := some "t8",
         speed := some 123 }] }

/-- Claim C3, counterexample: all three points violate the threshold and
consecutive violations are 4 minutes apart (≤ 5 minutes), so grouping by
the gap between CONSECUTIVE violations would merge them into one group and
emit exactly one anomaly; the code emits two, because it measures each gap
from the group's FIRST violation (0 → 8 min exceeds 5). -/
theorem claim3_counterexample :
    (∀ p ∈ cex3Ship.actual_route, speed_threshold < p.speed.getD 0) ∧
    cex3Ship.actual_route.map (fun p => p.timestamp.bind cex3Parse) =
      [some 0, some 240, some 480] ∧
    (detectSpeedViolations cex3Parse "now" cex3Ship).length = 2 := by
  refine ⟨by decide, by decide, ?_⟩
  have h0 : cex3Parse "t0" = some 0 := by decide
  have h4 : cex3Parse "t4" = some 240 := by decide
  have h8 : cex3Parse "t8" = some 480 := by decide
  have hne : ¬ (cex3Ship.actual_route = []) := by decide
  have hv : collectViolations "now" cex3Ship.actual_route =
      [⟨121, "t0", ⟨some 0, some 0⟩⟩, ⟨122, "t4", ⟨some 1, some 1⟩⟩,
       ⟨123, "t8", ⟨some 2, some 2⟩⟩] := by decide
  simp only [detectSpeedViolations, if_neg hne, hv]
  norm_num [grpLoop, speedStep, h0, h4, h8, mkSpeedAnomaly, speed_threshold]

/-- Claim C3, amended: for an actual route whose over-threshold points are
chronologically ordered and carry parsable timestamps, the check merges a
subsequent violation into the current group iff it is at most 5 minutes
after the group's FIRST violation (not the previous one), closing the group
otherwise; one `speed_violation` anomaly is emitted per group, severity high
iff the group's maximum speed exceeds 1.2 × threshold, with timestamp and
location from the group's first point. -/
theorem claim3_amended_speed_grouping (parse : String → Option ℚ)
    (nowS : String) (s : Shipment)
    (hp : ∀ v ∈ collectViolations nowS s.actual_route, (parse v.ts).isSome)
    (_hchron : (collectViolations nowS s.actual_route).Pairwise
      (fun a b => (parse a.ts).getD 0 ≤ (parse b.ts).getD 0)) :
    detectSpeedViolations parse nowS s =
      (grps (fun a b => decide (((parse b.ts).getD 0 - (parse a.ts).getD 0) / 60 ≤ 5))
          (collectViolations nowS s.actual_route)).map
        (fun g => ⟨.speed_violation, .speedViolation (groupMaxSpeed g),
          if speed_threshold * (6/5) < groupMaxSpeed g then .high else .medium,
          .str g.1.ts, some g.1.loc, false⟩) := by
  set joins : SpeedViol → SpeedViol → Bool :=
    fun a b => decide (((parse b.ts).getD 0 - (parse a.ts).getD 0) / 60 ≤ 5) with hjoins
  by_cases hr : s.actual_route = []
  · simp [detectSpeedViolations, hr, collectViolations, grps]
  · simp only [detectSpeedViolations, if_neg hr]
    cases hv : collectViolations nowS s.actual_route with
    | nil => simp [grps]
    | cons v vs =>
      rw [hv] at hp
      have hstep : ∀ a b : SpeedViol, (parse a.ts).isSome = true →
          (parse b.ts).isSome = true → speedStep parse a b = some (joins a b) := by
        intro a b ha hb
        obtain ⟨ta, hta⟩ := Option.isSome_iff_exists.mp ha
        obtain ⟨tb, htb⟩ := Option.isSome_iff_exists.mp hb
        simp [speedStep, hjoins, hta, htb]
      show grpLoop (speedStep parse) (fun m w => if m < w.speed then w.speed else m)
          SpeedViol.speed mkSpeedAnomaly vs v v.speed = _
      rw [grpLoop_grps (speedStep parse) joins _ _ _ (fun x => (parse x.ts).isSome = true)
        hstep vs v v.speed (hp v (by simp)) (fun x hx => hp x (by simp [hx]))]
      have hfold : ∀ (c : SpeedViol) (l : List SpeedViol),
          List.foldl (fun m w => if m < w.speed then w.speed else m) c.speed l =
            groupMaxSpeed (c, l) :=
        fun c l => foldl_gt_eq_foldl_max SpeedViol.speed l c.speed
      simp only [grps, List.map_cons]
      congr 1
      · rw [hfold v (vs.takeWhile (joins v))]
        rfl
      · refine List.map_congr_left ?_
        intro g _
        rw [hfold g.1 g.2]
        rfl

/-- Parse table for the C3 witness (10 minutes apart). -/
def w3Parse : String → Option ℚ := fun t =>
  if t = "u0" then some 0 else if t = "u10" then some 600 else none

/-- The C3 witness shipment: 121 km/h, then 150 km/h ten minutes later. -/
def w3Ship : Shipment :=
  { actual_route :=
      [{ latitude := some 0, longitude := some 0, timestamp := some "u0",
         speed := some 121 },
       { latitude := some 1, longitude := some 1, timestamp := some "u10",
         speed := some 150 }] }

/-- Claim C3 witness: two violations ten minutes apart fall into two
separate groups. -/
theorem claim3_witness :
    detectSpeedViolations w3Parse "now" w3Ship =
      (grps (fun a b => decide (((w3Parse b.ts).getD 0 - (w3Parse a.ts).getD 0) / 60 ≤ 5))
          (collectViolations "now" w3Ship.actual_route)).map
        (fun g => ⟨.speed_violation, .speedViolation (groupMaxSpeed g),
          if speed_threshold * (6/5) < groupMaxSpeed g then .high else .medium,
          .str g.1.ts, some g.1.loc, false⟩) :=
  claim3_amended_speed_grouping w3Parse "now" w3Ship (by decide) (by decide)

/-! ### Claim C7 (confirmed): temperature-breach grouping -/

/-- Spec-side breach list: the actual-route points carrying a temperature
reading outside [min, max], with `too_cold` iff the temperature is below the
minimum and `too_hot` iff above the maximum. -/
def tempBreachesSpec (nowS : String) (mi ma : ℚ) (route : List Pt) : List Breach :=
  route.filterMap (fun p => p.temperature.bind (fun t =>
    if t < mi ∨ ma < t then
      some ⟨t, p.timestamp.getD nowS, ⟨p.latitude, p.longitude⟩,
            if t < mi then .too_cold else .too_hot⟩
    else none))

/-- The minimum temperature over a (first element, rest) breach group. -/
def groupColdMin (g : Breach × List Breach) : ℚ :=
  List.foldl (fun m b => min m b.temp) g.1.temp g.2

/-- The maximum temperature over a (first element, rest) breach group. -/
def groupHotMax (g : Breach × List Breach) : ℚ :=
  List.foldl (fun m b => max m b.temp) g.1.temp g.2

theorem collectBreaches_eq (nowS : String) (mi ma : ℚ) :
    ∀ pts : List Pt, (∀ p ∈ pts, p.latitude.isSome ∧ p.longitude.isSome) →
      collectBreaches nowS mi ma pts = .ok (tempBreachesSpec nowS mi ma pts)
  | [], _ => rfl
  | p :: ps, h => by
    obtain ⟨la, hla⟩ := Option.isSome_iff_exists.mp (h p (by simp)).1
    obtain ⟨lo, hlo⟩ := Option.isSome_iff_exists.mp (h p (by simp)).2
    have hps : ∀ x ∈ ps, x.latitude.isSome ∧ x.longitude.isSome :=
      fun x hx => h x (by simp [hx])
    have ih := collectBreaches_eq nowS mi ma ps hps
    cases ht : p.temperature with
    | none => simp [collectBreaches, tempBreachesSpec, ht, ih]
    | some t =>
      by_cases hb : t < mi ∨ ma < t
      · simp only [collectBreaches, tempBreachesSpec, ht, hla, hlo, hb, if_true,
          ih, List.filterMap_cons, Option.some_bind]
      · simp [collectBreaches, tempBreachesSpec, ht, hb, ih]

theorem tempUpd_foldl_cold :
    ∀ (l : List Breach) (mi0 ma0 : ℚ),
      List.foldl tempUpd ⟨.too_cold, mi0, ma0⟩ l =
        ⟨.too_cold, List.foldl (fun m b => min m b.temp) mi0 l, ma0⟩
  | [], _, _ => rfl
  | b :: l, mi0, ma0 => by
    rw [List.foldl_cons, List.foldl_cons]
    have h : tempUpd ⟨.too_cold, mi0, ma0⟩ b = ⟨.too_cold, min mi0 b.temp, ma0⟩ := rfl
    rw [h]
    exact tempUpd_foldl_cold l (min mi0 b.temp) ma0

theorem tempUpd_foldl_hot :
    ∀ (l : List Breach) (mi0 ma0 : ℚ),
      List.foldl tempUpd ⟨.too_hot, mi0, ma0⟩ l =
        ⟨.too_hot, mi0, List.foldl (fun m b => max m b.temp) ma0 l⟩
  | [], _, _ => rfl
  | b :: l, mi0, ma0 => by
    rw [List.foldl_cons, List.foldl_cons]
    have h : tempUpd ⟨.too_hot, mi0, ma0⟩ b = ⟨.too_hot, mi0, max ma0 b.temp⟩ := by
      simp [tempUpd]
    rw [h]
    exact tempUpd_foldl_hot l mi0 (max ma0 b.temp)

/-- Claim C7: for a temperature-controlled shipment with a (min, max) range
whose route points are well-formed, the temperature check emits exactly one
always-high-severity `temperature_breach` anomaly per group, where a breach
joins the current group iff it is within 30 minutes of the group's first
breach AND of the same breach type (a type change closes the group even
inside the window); the anomaly reports the group's minimum temperature for
`too_cold` groups and maximum for `too_hot` groups, with timestamp and
location from the group's first breach. -/
theorem claim7_temperature_grouping (parse : String → Option ℚ)
    (nowS : String) (s : Shipment) (mi ma : ℚ)
    (htc : s.cargo.temperature_controlled = true)
    (hrange : s.cargo.temperature_range = some (mi, ma))
    (hc : ∀ p ∈ s.actual_route, p.latitude.isSome ∧ p.longitude.isSome)
    (hp : ∀ b ∈ tempBreachesSpec nowS mi ma s.actual_route, (parse b.ts).isSome) :
    detectTemperatureBreaches parse nowS s =
      .ok ((grps (fun a b =>
              decide (((parse b.ts).getD 0 - (parse a.ts).getD 0) / 60 ≤ 30 ∧
                b.btype = a.btype))
            (tempBreachesSpec nowS mi ma s.actual_route)).map
        (fun g =>
          ⟨.temperature_breach,
           (if g.1.btype = .too_cold then .tempLow (groupColdMin g) mi
            else .tempHigh (groupHotMax g) ma),
           .high, .str g.1.ts, some g.1.loc, false⟩)) := by
  set joins : Breach → Breach → Bool :=
    fun a b => decide (((parse b.ts).getD 0 - (parse a.ts).getD 0) / 60 ≤ 30 ∧
      b.btype = a.btype) with hjoins
  have hcb := collectBreaches_eq nowS mi ma s.actual_route hc
  simp only [detectTemperatureBreaches, htc, hrange, Bool.not_true, if_false, hcb]
  cases hbl : tempBreachesSpec nowS mi ma s.actual_route with
  | nil => simp [grps]
  | cons b bs =>
    rw [hbl] at hp
    have hstep : ∀ a c : Breach, (parse a.ts).isSome = true →
        (parse c.ts).isSome = true → tempStep parse a c = some (joins a c) := by
      intro a c ha hc'
      obtain ⟨ta, hta⟩ := Option.isSome_iff_exists.mp ha
      obtain ⟨tc, htc'⟩ := Option.isSome_iff_exists.mp hc'
      simp [tempStep, hjoins, hta, htc']
    show Except.ok (grpLoop (tempStep parse) tempUpd tempIni (tempOut mi ma)
      bs b (tempIni b)) = _
    rw [grpLoop_grps (tempStep parse) joins _ _ _ (fun x => (parse x.ts).isSome = true)
      hstep bs b (tempIni b) (hp b (by simp)) (fun x hx => hp x (by simp [hx]))]
    simp only [grps, List.map_cons, Except.ok.injEq]
    congr 1
    · show tempOut mi ma b (List.foldl tempUpd (tempIni b) (bs.takeWhile (joins b))) = _
      cases hbt : b.btype with
      | too_cold =>
        have : tempIni b = ⟨.too_cold, b.temp, b.temp⟩ := by rw [tempIni, hbt]
        rw [this, tempUpd_foldl_cold]
        simp [tempOut, hbt, groupColdMin]
      | too_hot =>
        have : tempIni b = ⟨.too_hot, b.temp, b.temp⟩ := by rw [tempIni, hbt]
        rw [this, tempUpd_foldl_hot]
        simp [tempOut, hbt, groupHotMax]
    · refine List.map_congr_left ?_
      intro g _
      cases hbt : g.1.btype with
      | too_cold =>
        have : tempIni g.1 = ⟨.too_cold, g.1.temp, g.1.temp⟩ := by rw [tempIni, hbt]
        rw [this, tempUpd_foldl_cold]
        simp [tempOut, hbt, groupColdMin]
      | too_hot =>
        have : tempIni g.1 = ⟨.too_hot, g.1.temp, g.1.temp⟩ := by rw [tempIni, hbt]
        rw [this, tempUpd_foldl_hot]
        simp [tempOut, hbt, groupHotMax]

/-- Parse table for the C7 witness (8 minutes apart). -/
def w7Parse : String → Option ℚ := fun t =>
  if t = "v0" then some 0 else if t = "v8" then some 480 else none

/-- The C7 witness shipment: range 2..8 °C, readings 10 °C then 11 °C eight
minutes later. -/
def w7Ship : Shipment :=
  { cargo := { temperature_controlled := true, temperature_range := some (2, 8) },
    actual_route :=
      [{ latitude := some 0, longitude := some 0, timestamp := some "v0",
         temperature := some 10 },
       { latitude := some 1, longitude := some 1, timestamp := some "v8",
         temperature := some 11 }] }

/-- Claim C7 witness: two too-hot readings eight minutes apart. -/
theorem claim7_witness :
    detectTemperatureBreaches w7Parse "now" w7Ship =
      .ok ((grps (fun a b =>
              decide (((w7Parse b.ts).getD 0 - (w7Parse a.ts).getD 0) / 60 ≤ 30 ∧
                b.btype = a.btype))
            (tempBreachesSpec "now" 2 8 w7Ship.actual_route)).map
        (fun g =>
          ⟨.temperature_breach,
           (if g.1.btype = .too_cold then .tempLow (groupColdMin g) 2
            else .tempHigh (groupHotMax g) 8),
           .high, .str g.1.ts, some g.1.loc, false⟩)) :=
  claim7_temperature_grouping w7Parse "now" w7Ship 2 8 rfl rfl (by decide) (by decide)

/-! ### Claim C5 (confirmed): unusual stops -/

/-- Spec-side: the stop produced by one maximal stationary run, if its
duration (last stationary point's time minus first's) reaches the
threshold. -/
def runToStop (T : Pt → ℚ) (g : Pt × List Pt) : Option AccStop :=
  let e := (g.2.map T).getLastD (T g.1)
  if unusual_stop_threshold_minutes ≤ (e - T g.1) / 60 then
    some ⟨T g.1, ⟨g.1.latitude, g.1.longitude⟩, (e - T g.1) / 60⟩
  else none

/-- Spec-side: the accepted stops of a point sequence: one candidate per
maximal stationary run (speed `< 5`, missing speed stationary), kept iff its
duration reaches the threshold. -/
def runStops (parse : String → Option ℚ) (pts : List Pt) : List AccStop :=
  (statRuns (fun p => decide (p.speed.getD 0 < 5)) pts).filterMap
    (runToStop (fun p => (p.timestamp.bind parse).getD 0))

theorem closeStop_pos (a e : ℚ) (L : Loc) (acc : List AccStop)
    (h : unusual_stop_threshold_minutes ≤ (e - a) / 60) :
    closeStop ⟨a, e, L⟩ acc = acc ++ [⟨a, L, (e - a) / 60⟩] := by
  simp only [closeStop]
  rw [if_pos h]

theorem closeStop_neg (a e : ℚ) (L : Loc) (acc : List AccStop)
    (h : ¬ unusual_stop_threshold_minutes ≤ (e - a) / 60) :
    closeStop ⟨a, e, L⟩ acc = acc := by
  simp only [closeStop]
  rw [if_neg h]

theorem runToStop_pos (T : Pt → ℚ) (p : Pt) (w : List Pt)
    (h : unusual_stop_threshold_minutes ≤
      ((w.map T).getLastD (T p) - T p) / 60) :
    runToStop T (p, w) = some ⟨T p, ⟨p.latitude, p.longitude⟩,
      ((w.map T).getLastD (T p) - T p) / 60⟩ := by
  simp only [runToStop]
  rw [if_pos h]

theorem runToStop_neg (T : Pt → ℚ) (p : Pt) (w : List Pt)
    (h : ¬ unusual_stop_threshold_minutes ≤
      ((w.map T).getLastD (T p) - T p) / 60) :
    runToStop T (p, w) = none := by
  simp only [runToStop]
  rw [if_neg h]

set_option maxHeartbeats 2000000 in
theorem stopLoop_runs (parse : String → Option ℚ) :
    ∀ pts : List Pt,
      (∀ p ∈ pts, (p.timestamp.bind parse).isSome = true ∧
        p.latitude.isSome = true ∧ p.longitude.isSome = true) →
      (∀ acc, stopLoopFin parse pts none acc = acc ++ runStops parse pts) ∧
      (∀ (st : OpenStop) (acc : List AccStop),
        stopLoopFin parse pts (some st) acc =
          closeStop ⟨st.start,
              ((pts.takeWhile (fun p => decide (p.speed.getD 0 < 5))).map
                (fun p => (p.timestamp.bind parse).getD 0)).getLastD st.endT,
              st.loc⟩ acc ++
            runStops parse
              (pts.dropWhile (fun p => decide (p.speed.getD 0 < 5)))) := by
  intro pts
  induction pts with
  | nil =>
    intro _
    constructor
    · intro acc
      simp [stopLoopFin, stopLoop, runStops, statRuns]
    · intro st acc
      simp [stopLoopFin, stopLoop, runStops, statRuns, closeStop]
  | cons p ps ih =>
    intro h
    obtain ⟨htp0, hla0, hlo0⟩ := h p (by simp)
    obtain ⟨tp, htp⟩ := Option.isSome_iff_exists.mp htp0
    obtain ⟨la, hla⟩ := Option.isSome_iff_exists.mp hla0
    obtain ⟨lo, hlo⟩ := Option.isSome_iff_exists.mp hlo0
    have hps : ∀ x ∈ ps, (x.timestamp.bind parse).isSome = true ∧
        x.latitude.isSome = true ∧ x.longitude.isSome = true :=
      fun x hx => h x (by simp [hx])
    obtain ⟨ih1, ih2⟩ := ih hps
    by_cases hs : p.speed.getD 0 < 5
    · -- stationary head
      have hsd : (fun q : Pt => decide (q.speed.getD 0 < 5)) p = true := by
        simp [hs]
      have hruns : runStops parse (p :: ps) =
          match runToStop (fun q => (q.timestamp.bind parse).getD 0)
            (p, ps.takeWhile (fun q => decide (q.speed.getD 0 < 5))) with
          | some b => b :: runStops parse
              (ps.dropWhile (fun q => decide (q.speed.getD 0 < 5)))
          | none => runStops parse
              (ps.dropWhile (fun q => decide (q.speed.getD 0 < 5))) := by
        simp only [runStops, statRuns, hsd, if_true, List.filterMap_cons]
        cases runToStop (fun q => (q.timestamp.bind parse).getD 0)
          (p, ps.takeWhile (fun q => decide (q.speed.getD 0 < 5))) with
        | none => rfl
        | some b => rfl
      constructor
      · intro acc
        have hstep : stopLoop parse (p :: ps) none acc =
            stopLoop parse ps (some ⟨(p.timestamp.bind parse).getD 0,
              (p.timestamp.bind parse).getD 0, ⟨some la, some lo⟩⟩) acc := by
          simp only [stopLoop, htp, hla, hlo, if_pos hs, Option.getD_some]
        rw [show stopLoopFin parse (p :: ps) none acc =
            stopLoopFin parse ps (some ⟨(p.timestamp.bind parse).getD 0,
              (p.timestamp.bind parse).getD 0, ⟨some la, some lo⟩⟩) acc from by
          simp only [stopLoopFin, hstep]]
        rw [ih2 _ acc]
        dsimp only
        rw [hruns]
        by_cases hq : unusual_stop_threshold_minutes ≤
            (((ps.takeWhile (fun q : Pt => decide (q.speed.getD 0 < 5))).map
              (fun q : Pt => (q.timestamp.bind parse).getD 0)).getLastD
                ((p.timestamp.bind parse).getD 0) -
              (p.timestamp.bind parse).getD 0) / 60
        · rw [closeStop_pos _ _ _ _ hq,
            runToStop_pos (fun q => (q.timestamp.bind parse).getD 0) p _ hq]
          simp [hla, hlo]
        · rw [closeStop_neg _ _ _ _ hq,
            runToStop_neg (fun q => (q.timestamp.bind parse).getD 0) p _ hq]
      · intro st acc
        have hstep : stopLoop parse (p :: ps) (some st) acc =
            stopLoop parse ps (some ⟨st.start,
              (p.timestamp.bind parse).getD 0, st.loc⟩) acc := by
          simp only [stopLoop, htp, if_pos hs, Option.getD_some]
        rw [show stopLoopFin parse (p :: ps) (some st) acc =
            stopLoopFin parse ps (some ⟨st.start,
              (p.timestamp.bind parse).getD 0, st.loc⟩) acc from by
          simp only [stopLoopFin, hstep]]
        rw [ih2 _ acc]
        dsimp only
        rw [show (p :: ps).takeWhile (fun q : Pt => decide (q.speed.getD 0 < 5)) =
            p :: ps.takeWhile (fun q => decide (q.speed.getD 0 < 5)) from by
          simp [List.takeWhile_cons, hsd]]
        rw [show (p :: ps).dropWhile (fun q : Pt => decide (q.speed.getD 0 < 5)) =
            ps.dropWhile (fun q => decide (q.speed.getD 0 < 5)) from by
          simp [List.dropWhile_cons, hsd]]
        rw [List.map_cons, List.getLastD_cons]
    · -- moving head
      have hsd : (fun q : Pt => decide (q.speed.getD 0 < 5)) p = false := by
        simp [hs]
      have hruns : runStops parse (p :: ps) = runStops parse ps := by
        simp [runStops, statRuns, hsd]
      constructor
      · intro acc
        have hstep : stopLoop parse (p :: ps) none acc = stopLoop parse ps none acc := by
          simp only [stopLoop, htp, if_neg hs]
        rw [show stopLoopFin parse (p :: ps) none acc =
            stopLoopFin parse ps none acc from by simp only [stopLoopFin, hstep]]
        rw [ih1 acc, hruns]
      · intro st acc
        have hstep : stopLoop parse (p :: ps) (some st) acc =
            stopLoop parse ps none (closeStop st acc) := by
          simp only [stopLoop, htp, if_neg hs]
        rw [show stopLoopFin parse (p :: ps) (some st) acc =
            stopLoopFin parse ps none (closeStop st acc) from by
          simp only [stopLoopFin, hstep]]
        rw [ih1 (closeStop st acc)]
        rw [show (p :: ps).takeWhile (fun q : Pt => decide (q.speed.getD 0 < 5)) =
            [] from by simp [List.takeWhile_cons, hsd]]
        rw [show (p :: ps).dropWhile (fun q : Pt => decide (q.speed.getD 0 < 5)) =
            p :: ps from by simp [List.dropWhile_cons, hsd]]
        rw [hruns]
        rfl

/-- Claim C5: for a route whose points all have parsable timestamps and
coordinates, the unusual-stop check equals: sort by timestamp, cut the
sorted sequence into maximal stationary runs (speed `< 5` km/h, missing
speed counting as 0, hence stationary), and for each run — including one
still open at the end of the route — emit one `unusual_stop` anomaly iff its
duration is at least the 30-minute threshold, with severity high iff the
duration exceeds 60 minutes, timestamp the stop's start time and location
the stop's starting coordinates. -/
theorem claim5_unusual_stops (parse : String → Option ℚ) (s : Shipment)
    (h : ∀ p ∈ s.actual_route, (p.timestamp.bind parse).isSome = true ∧
      p.latitude.isSome = true ∧ p.longitude.isSome = true) :
    detectUnusualStops parse s =
      (statRuns (fun p => decide (p.speed.getD 0 < 5))
          (sortByT (fun p => (p.timestamp.bind parse).getD 0) s.actual_route)).filterMap
        (fun g =>
          let T : Pt → ℚ := fun p => (p.timestamp.bind parse).getD 0
          let dur := ((g.2.map T).getLastD (T g.1) - T g.1) / 60
          if unusual_stop_threshold_minutes ≤ dur then
            some (⟨.unusual_stop, .unusualStop dur,
              if 60 < dur then .high else .medium,
              .iso (T g.1), some ⟨g.1.latitude, g.1.longitude⟩, false⟩ : Anomaly)
          else none) := by
  have hpt : ∀ g : Pt × List Pt,
      (runToStop (fun p => (p.timestamp.bind parse).getD 0) g).map mkStopAnomaly =
        (let T : Pt → ℚ := fun p => (p.timestamp.bind parse).getD 0
         let dur := ((g.2.map T).getLastD (T g.1) - T g.1) / 60
         if unusual_stop_threshold_minutes ≤ dur then
           some (⟨.unusual_stop, .unusualStop dur,
             if 60 < dur then .high else .medium,
             .iso (T g.1), some ⟨g.1.latitude, g.1.longitude⟩, false⟩ : Anomaly)
         else none) := by
    rintro ⟨p, w⟩
    dsimp only
    by_cases hq : unusual_stop_threshold_minutes ≤
        ((w.map (fun q : Pt => (q.timestamp.bind parse).getD 0)).getLastD
          ((p.timestamp.bind parse).getD 0) - (p.timestamp.bind parse).getD 0) / 60
    · rw [runToStop_pos (fun q : Pt => (q.timestamp.bind parse).getD 0) p w hq,
        if_pos hq]
      rfl
    · rw [runToStop_neg (fun q : Pt => (q.timestamp.bind parse).getD 0) p w hq,
        if_neg hq]
      rfl
  by_cases hlen : s.actual_route.length < 2
  · rcases hroute : s.actual_route with _ | ⟨p, _ | ⟨q, rest⟩⟩
    · simp [detectUnusualStops, hroute, sortByT, statRuns]
    · have hsort : sortByT (fun p : Pt => (p.timestamp.bind parse).getD 0) [p] = [p] := rfl
      rw [show detectUnusualStops parse s = [] from by
        simp [detectUnusualStops, hroute]]
      rw [hsort]
      by_cases hs : (fun q : Pt => decide (q.speed.getD 0 < 5)) p = true
      · rw [show statRuns (fun p : Pt => decide (p.speed.getD 0 < 5)) [p] =
            [(p, [])] from by simp [statRuns, hs]]
        simp only [List.filterMap_cons, List.filterMap_nil]
        norm_num [unusual_stop_threshold_minutes]
      · rw [show statRuns (fun p : Pt => decide (p.speed.getD 0 < 5)) [p] =
            [] from by simp [statRuns, hs]]
        rfl
    · exfalso
      rw [hroute] at hlen
      simp only [List.length_cons] at hlen
      omega
  · have hall : s.actual_route.all (fun p => (p.timestamp.bind parse).isSome) = true :=
      List.all_eq_true.mpr (fun p hp => (h p hp).1)
    have hsmem : ∀ p ∈ sortByT (fun p : Pt => (p.timestamp.bind parse).getD 0)
        s.actual_route, (p.timestamp.bind parse).isSome = true ∧
        p.latitude.isSome = true ∧ p.longitude.isSome = true :=
      fun p hp => h p ((mem_sortByT _ _ _).mp hp)
    rw [show detectUnusualStops parse s =
        (stopLoopFin parse (sortByT (fun p => (p.timestamp.bind parse).getD 0)
          s.actual_route) none []).map mkStopAnomaly from by
      simp [detectUnusualStops, hlen, hall]]
    rw [(stopLoop_runs parse _ hsmem).1 []]
    rw [List.nil_append, runStops, List.map_filterMap]
    exact List.filterMap_congr (fun g _ => hpt g)

/-- The C5 witness shipment: two stationary points 35 minutes apart, then a
moving point (speeds 0, 0, 50). -/
def w5Ship : Shipment :=
  { actual_route :=
      [{ latitude := some 0, longitude := some 0, timestamp := some "s0",
         speed := some 0 },
       { latitude := some 0, longitude := some 0, timestamp := some "s35",
         speed := some 0 },
       { latitude := some 1, longitude := some 1, timestamp := some "s40",
         speed := some 50 }] }

/-- Parse table for the C5 witness. -/
def w5Parse : String → Option ℚ := fun t =>
  if t = "s0" then some 0 else if t = "s35" then some 2100
  else if t = "s40" then some 2400 else none

/-- Claim C5 witness: a 35-minute stop bounded by motion. -/
theorem claim5_witness :
    detectUnusualStops w5Parse w5Ship =
      (statRuns (fun p => decide (p.speed.getD 0 < 5))
          (sortByT (fun p => (p.timestamp.bind w5Parse).getD 0) w5Ship.actual_route)).filterMap
        (fun g =>
          let T : Pt → ℚ := fun p => (p.timestamp.bind w5Parse).getD 0
          let dur := ((g.2.map T).getLastD (T g.1) - T g.1) / 60
          if unusual_stop_threshold_minutes ≤ dur then
            some (⟨.unusual_stop, .unusualStop dur,
              if 60 < dur then .high else .medium,
              .iso (T g.1), some ⟨g.1.latitude, g.1.longitude⟩, false⟩ : Anomaly)
          else none) :=
  claim5_unusual_stops w5Parse w5Ship (by decide)

/-! ### Claim C8 (confirmed): fraud route-revisit -/

theorem revisitScan_nodup (nowS : String) :
    ∀ (ps : List Pt) (seen : List (ℚ × ℚ)),
      (∀ p ∈ ps, p.latitude.isSome ∧ p.longitude.isSome) →
      (∀ p ∈ ps, keyOf p ∉ seen) →
      (ps.map keyOf).Nodup →
      revisitScan nowS ps seen = []
  | [], _, _, _, _ => rfl
  | p :: ps, seen, hc, hseen, hnd => by
    obtain ⟨la, hla⟩ := Option.isSome_iff_exists.mp (hc p (by simp)).1
    obtain ⟨lo, hlo⟩ := Option.isSome_iff_exists.mp (hc p (by simp)).2
    have hk : (round3 la, round3 lo) = keyOf p := by simp [keyOf, hla, hlo]
    have hnd0 := hnd
    rw [List.map_cons] at hnd0
    have hnd' := List.nodup_cons.mp hnd0
    simp only [revisitScan, hla, hlo]
    rw [if_neg (by rw [hk]; exact hseen p (by simp))]
    apply revisitScan_nodup nowS ps ((round3 la, round3 lo) :: seen)
      (fun x hx => hc x (by simp [hx]))
      (fun x hx => by
        simp only [List.mem_cons, not_or]
        exact ⟨by rw [hk]; intro he; exact hnd'.1 (he ▸ List.mem_map_of_mem keyOf hx),
          hseen x (by simp [hx])⟩)
      hnd'.2

theorem revisitScan_hit (nowS : String) :
    ∀ (pre : List Pt) (x : Pt) (post : List Pt) (seen : List (ℚ × ℚ)),
      (∀ p ∈ pre ++ x :: post, p.latitude.isSome ∧ p.longitude.isSome) →
      (∀ p ∈ pre, keyOf p ∉ seen) →
      (pre.map keyOf).Nodup →
      (keyOf x ∈ seen ∨ keyOf x ∈ pre.map keyOf) →
      revisitScan nowS (pre ++ x :: post) seen =
        [⟨.potential_fraud, .fraudRevisit, .medium, .str (x.timestamp.getD nowS),
          some ⟨x.latitude, x.longitude⟩, false⟩]
  | [], x, post, seen, hc, _, _, hmem => by
    obtain ⟨la, hla⟩ := Option.isSome_iff_exists.mp (hc x (by simp)).1
    obtain ⟨lo, hlo⟩ := Option.isSome_iff_exists.mp (hc x (by simp)).2
    have hk : (round3 la, round3 lo) = keyOf x := by simp [keyOf, hla, hlo]
    have hx : keyOf x ∈ seen := by
      rcases hmem with h | h
      · exact h
      · simp at h
    simp only [List.nil_append, revisitScan, hla, hlo]
    rw [if_pos (by rw [hk]; exact hx)]
  | p :: pre, x, post, seen, hc, hseen, hnd, hmem => by
    obtain ⟨la, hla⟩ := Option.isSome_iff_exists.mp (hc p (by simp)).1
    obtain ⟨lo, hlo⟩ := Option.isSome_iff_exists.mp (hc p (by simp)).2
    have hk : (round3 la, round3 lo) = keyOf p := by simp [keyOf, hla, hlo]
    have hnd0 := hnd
    rw [List.map_cons] at hnd0
    have hnd' := List.nodup_cons.mp hnd0
    rw [show (p :: pre) ++ x :: post = p :: (pre ++ x :: post) from rfl]
    simp only [revisitScan, hla, hlo]
    rw [if_neg (by rw [hk]; exact hseen p (by simp))]
    apply revisitScan_hit nowS pre x post ((round3 la, round3 lo) :: seen)
      (fun q hq => hc q (by simp at hq ⊢; tauto))
      (fun q hq => by
        simp only [List.mem_cons, not_or]
        exact ⟨by rw [hk]; intro he; exact hnd'.1 (he ▸ List.mem_map_of_mem keyOf hq),
          hseen q (by simp [hq])⟩)
      hnd'.2
      (by
        rcases hmem with h | h
        · exact Or.inl (by simp [h])
        · simp only [List.map_cons, List.mem_cons] at h
          rcases h with h | h
          · exact Or.inl (by simp [hk, h])
          · exact Or.inr h)

theorem exists_first_dup {α K : Type} [DecidableEq K] (f : α → K) :
    ∀ (l : List α) (acc : List K), acc.Nodup → ¬ (acc ++ l.map f).Nodup →
      ∃ pre x post, l = pre ++ x :: post ∧ (acc ++ pre.map f).Nodup ∧
        (f x ∈ acc ∨ f x ∈ pre.map f)
  | [], acc, hacc, hnd => absurd (by simpa using hacc) hnd
  | a :: l, acc, hacc, hnd => by
    by_cases hfa : f a ∈ acc
    · exact ⟨[], a, l, rfl, by simpa using hacc, Or.inl hfa⟩
    · have hacc' : (acc ++ [f a]).Nodup := by
        simp [List.nodup_append, hacc, hfa]
      have hnd' : ¬ ((acc ++ [f a]) ++ l.map f).Nodup := by
        simpa [List.append_assoc] using hnd
      obtain ⟨pre, x, post, hl, hnd2, hmem⟩ := exists_first_dup f l (acc ++ [f a]) hacc' hnd'
      refine ⟨a :: pre, x, post, by rw [hl, List.cons_append], ?_, ?_⟩
      · simpa [List.append_assoc] using hnd2
      · rcases hmem with h | h
        · rcases List.mem_append.mp h with h | h
          · exact Or.inl h
          · right
            simp at h
            simp [h]
        · right
          simp [h]

/-- Claim C8: on routes longer than 2 well-formed points, the route-revisit
sub-check walks the route in order keying each point by its latitude and
longitude rounded to 3 decimals; if the keys are duplicate-free it emits
nothing, and otherwise it emits exactly one medium-severity
`potential_fraud` anomaly at the FIRST revisited point (the unique
decomposition pre ++ x :: post with pre's keys duplicate-free and x's key
already in pre) and stops scanning; routes with at most 2 points never
trigger the sub-check. -/
theorem claim8_fraud_revisit (nowS : String) (s : Shipment)
    (hlen : 2 < s.actual_route.length)
    (hc : ∀ p ∈ s.actual_route, p.latitude.isSome ∧ p.longitude.isSome) :
    ((s.actual_route.map keyOf).Nodup → detectPotentialFraud nowS s = []) ∧
    (¬ (s.actual_route.map keyOf).Nodup →
      ∃ pre x post, s.actual_route = pre ++ x :: post ∧
        (pre.map keyOf).Nodup ∧ keyOf x ∈ pre.map keyOf ∧
        detectPotentialFraud nowS s =
          [⟨.potential_fraud, .fraudRevisit, .medium, .str (x.timestamp.getD nowS),
            some ⟨x.latitude, x.longitude⟩, false⟩]) ∧
    (∀ s' : Shipment, s'.actual_route.length ≤ 2 →
      detectPotentialFraud nowS s' = []) := by
  have hdp : detectPotentialFraud nowS s = revisitScan nowS s.actual_route [] := by
    simp [detectPotentialFraud, hlen]
  refine ⟨?_, ?_, ?_⟩
  · intro hnd
    rw [hdp]
    exact revisitScan_nodup nowS s.actual_route [] hc (by simp) hnd
  · intro hnd
    obtain ⟨pre, x, post, hl, hnd2, hmem⟩ :=
      exists_first_dup keyOf s.actual_route [] (by simp) (by simpa using hnd)
    have hmem' : keyOf x ∈ pre.map keyOf := by
      rcases hmem with h | h
      · simp at h
      · exact h
    refine ⟨pre, x, post, hl, by simpa using hnd2, hmem', ?_⟩
    rw [hdp, hl]
    exact revisitScan_hit nowS pre x post [] (hl ▸ hc) (by simp)
      (by simpa using hnd2) (Or.inr hmem')
  · intro s' hle
    simp only [detectPotentialFraud]
    rw [if_neg (by omega)]

/-- The C8 witness shipment (spec example): a key revisited after five other
points; (10.0001, 20.0001) rounds to the (10, 20) key of the first point. -/
def w8Ship : Shipment :=
  { actual_route :=
      [{ latitude := some 10, longitude := some 20, timestamp := some "r0" },
       { latitude := some 11, longitude := some 21, timestamp := some "r1" },
       { latitude := some 12, longitude := some 22, timestamp := some "r2" },
       { latitude := some (10 + 1/10000), longitude := some (20 + 1/10000),
         timestamp := some "r3" }] }

/-- Claim C8 witness: the theorem applied to `w8Ship`. -/
theorem claim8_witness :
    ((w8Ship.actual_route.map keyOf).Nodup → detectPotentialFraud "now" w8Ship = []) ∧
    (¬ (w8Ship.actual_route.map keyOf).Nodup →
      ∃ pre x post, w8Ship.actual_route = pre ++ x :: post ∧
        (pre.map keyOf).Nodup ∧ keyOf x ∈ pre.map keyOf ∧
        detectPotentialFraud "now" w8Ship =
          [⟨.potential_fraud, .fraudRevisit, .medium, .str (x.timestamp.getD "now"),
            some ⟨x.latitude, x.longitude⟩, false⟩]) ∧
    (∀ s' : Shipment, s'.actual_route.length ≤ 2 →
      detectPotentialFraud "now" s' = []) :=
  claim8_fraud_revisit "now" w8Ship (by decide) (by decide)

/-! ### Claim C2 (confirmed): route deviation -/

/-- Spec-side: the minimum distance from an actual point to any planned
waypoint. -/
def specMinDist (D : ℚ × ℚ → ℚ × ℚ → ℚ) (planned : List Pt) (a : Pt) : ℚ :=
  listMinD (planned.map (fun q => D (cpt a) (cpt q)))

/-- Spec-side: the worst (largest) nearest-waypoint distance over the actual
route. -/
def specWorst (D : ℚ × ℚ → ℚ × ℚ → ℚ) (planned actual : List Pt) : ℚ :=
  listMaxD (actual.map (specMinDist D planned))

/-- Spec-side: the total planned route length (sum of consecutive-waypoint
distances). -/
def specTotal (D : ℚ × ℚ → ℚ × ℚ → ℚ) (pl : List Pt) : ℚ :=
  ((pl.zip pl.tail).map (fun pq => D (cpt pq.1) (cpt pq.2))).sum

/-- Spec-side: the deviation fraction — worst over total, 0 when the total
planned distance is zero. -/
def devFraction (D : ℚ × ℚ → ℚ × ℚ → ℚ) (s : Shipment) : ℚ :=
  if 0 < specTotal D s.planned_route then
    specWorst D s.planned_route s.actual_route / specTotal D s.planned_route
  else 0

theorem le_foldl_max : ∀ (l : List ℚ) (m : ℚ), m ≤ List.foldl max m l
  | [], _ => le_refl _
  | x :: l, m => le_trans (le_max_left m x) (le_foldl_max l (max m x))

theorem foldl_min_nonneg : ∀ (l : List ℚ) (m : ℚ), 0 ≤ m → (∀ x ∈ l, 0 ≤ x) →
    0 ≤ List.foldl min m l
  | [], _, hm, _ => hm
  | x :: l, m, hm, hl =>
    foldl_min_nonneg l (min m x) (le_min hm (hl x (by simp)))
      (fun y hy => hl y (by simp [hy]))

theorem minDistLoop_foldl (dist : ℚ × ℚ → ℚ × ℚ → Option ℚ)
    (D : ℚ × ℚ → ℚ × ℚ → ℚ) (hD : ∀ a b, dist a b = some (D a b)) (ac : ℚ × ℚ) :
    ∀ (qs : List Pt) (m : ℚ) (c : Option Pt),
      (∀ q ∈ qs, q.latitude.isSome ∧ q.longitude.isSome) →
      ∃ c', minDistLoop dist ac qs (.fin m) c =
        .ok (.fin (List.foldl (fun acc q => min acc (D ac (cpt q))) m qs), c')
  | [], m, c, _ => ⟨c, rfl⟩
  | q :: qs, m, c, h => by
    have hq := h q (by simp)
    have hqs : ∀ x ∈ qs, x.latitude.isSome ∧ x.longitude.isSome :=
      fun x hx => h x (by simp [hx])
    rw [List.foldl_cons]
    simp only [minDistLoop, coordsOf_ok q hq.1 hq.2, hD ac (cpt q)]
    show ∃ c', (if (RDist.fin (D ac (cpt q))).blt (.fin m) = true then
        minDistLoop dist ac qs (.fin (D ac (cpt q))) (some q)
      else minDistLoop dist ac qs (.fin m) c) = _
    by_cases hlt : D ac (cpt q) < m
    · rw [if_pos (by simp [RDist.blt, hlt])]
      rw [show min m (D ac (cpt q)) = D ac (cpt q) from
        min_eq_right (le_of_lt hlt)]
      exact minDistLoop_foldl dist D hD ac qs (D ac (cpt q)) (some q) hqs
    · rw [if_neg (by simp [RDist.blt, hlt])]
      rw [show min m (D ac (cpt q)) = m from min_eq_left (le_of_not_lt hlt)]
      exact minDistLoop_foldl dist D hD ac qs m c hqs

theorem minDistLoop_spec (dist : ℚ × ℚ → ℚ × ℚ → Option ℚ)
    (D : ℚ × ℚ → ℚ × ℚ → ℚ) (hD : ∀ a b, dist a b = some (D a b)) (a : Pt) :
    ∀ qs : List Pt, qs ≠ [] →
      (∀ q ∈ qs, q.latitude.isSome ∧ q.longitude.isSome) →
      ∃ c', minDistLoop dist (cpt a) qs .inf none =
        .ok (.fin (specMinDist D qs a), c')
  | [], hne, _ => absurd rfl hne
  | q :: qs, _, h => by
    have hq := h q (by simp)
    have hqs : ∀ x ∈ qs, x.latitude.isSome ∧ x.longitude.isSome :=
      fun x hx => h x (by simp [hx])
    simp only [minDistLoop, coordsOf_ok q hq.1 hq.2, hD (cpt a) (cpt q)]
    show ∃ c', (if (RDist.fin (D (cpt a) (cpt q))).blt .inf = true then
        minDistLoop dist (cpt a) qs (.fin (D (cpt a) (cpt q))) (some q)
      else minDistLoop dist (cpt a) qs .inf none) = _
    rw [if_pos (by simp [RDist.blt])]
    obtain ⟨c', hc'⟩ :=
      minDistLoop_foldl dist D hD (cpt a) qs (D (cpt a) (cpt q)) (some q) hqs
    refine ⟨c', ?_⟩
    rw [hc']
    simp [specMinDist, listMinD, List.foldl_map]

theorem worstLoop_spec (dist : ℚ × ℚ → ℚ × ℚ → Option ℚ)
    (D : ℚ × ℚ → ℚ × ℚ → ℚ) (hD : ∀ a b, dist a b = some (D a b))
    (planned : List Pt) (hpne : planned ≠ [])
    (hcp : ∀ q ∈ planned, q.latitude.isSome ∧ q.longitude.isSome) :
    ∀ (as : List Pt) (m : ℚ) (mp : Option Pt) (mts : Option String),
      (∀ x ∈ as, x.latitude.isSome ∧ x.longitude.isSome) →
      ∃ res, worstLoop dist planned as (.fin m) mp mts = .ok res ∧
        res.1 = .fin (List.foldl max m (as.map (specMinDist D planned))) ∧
        (m < List.foldl max m (as.map (specMinDist D planned)) →
          ∃ w, as.find? (fun a => decide (specMinDist D planned a =
              List.foldl max m (as.map (specMinDist D planned)))) = some w ∧
            res.2 = (some w, w.timestamp)) ∧
        (¬ m < List.foldl max m (as.map (specMinDist D planned)) →
          res.2 = (mp, mts))
  | [], m, mp, mts, _ =>
    ⟨(.fin m, mp, mts), rfl, rfl, fun hlt => absurd hlt (lt_irrefl m), fun _ => rfl⟩
  | a :: as, m, mp, mts, h => by
    have ha := h a (by simp)
    have has : ∀ x ∈ as, x.latitude.isSome ∧ x.longitude.isSome :=
      fun x hx => h x (by simp [hx])
    obtain ⟨c', hmin⟩ := minDistLoop_spec dist D hD a planned hpne hcp
    have hac : coordsOf a = .ok (cpt a) := coordsOf_ok a ha.1 ha.2
    simp only [worstLoop, hac, hmin, List.map_cons, List.foldl_cons]
    show ∃ res, (if (RDist.fin m).blt (.fin (specMinDist D planned a)) = true then
        worstLoop dist planned as (.fin (specMinDist D planned a)) (some a) a.timestamp
      else worstLoop dist planned as (.fin m) mp mts) = .ok res ∧ _
    by_cases hlt : m < specMinDist D planned a
    · rw [if_pos (by simp [RDist.blt, hlt])]
      simp only [show max m (specMinDist D planned a) = specMinDist D planned a from
        max_eq_right (le_of_lt hlt)]
      obtain ⟨res, hres, h1, h2, h3⟩ :=
        worstLoop_spec dist D hD planned hpne hcp as
          (specMinDist D planned a) (some a) a.timestamp has
      refine ⟨res, hres, h1, ?_, ?_⟩
      · intro _
        by_cases hlt2 : specMinDist D planned a <
            List.foldl max (specMinDist D planned a) (as.map (specMinDist D planned))
        · obtain ⟨w, hw, hres2⟩ := h2 hlt2
          refine ⟨w, ?_, hres2⟩
          rw [List.find?_cons_of_neg, hw]
          simp only [decide_eq_true_eq]
          exact ne_of_lt hlt2
        · have heq : List.foldl max (specMinDist D planned a)
              (as.map (specMinDist D planned)) = specMinDist D planned a :=
            le_antisymm (le_of_not_lt hlt2) (le_foldl_max _ _)
          refine ⟨a, ?_, ?_⟩
          · rw [List.find?_cons_of_pos]
            simp [heq]
          · rw [h3 (by rw [heq]; exact lt_irrefl _)]
      · intro hnot
        exfalso
        exact hnot (lt_of_lt_of_le hlt (le_foldl_max _ _))
    · rw [if_neg (by simp [RDist.blt, hlt])]
      simp only [show max m (specMinDist D planned a) = m from
        max_eq_left (le_of_not_lt hlt)]
      obtain ⟨res, hres, h1, h2, h3⟩ :=
        worstLoop_spec dist D hD planned hpne hcp as m mp mts has
      refine ⟨res, hres, h1, ?_, h3⟩
      intro hm
      obtain ⟨w, hw, hres2⟩ := h2 hm
      refine ⟨w, ?_, hres2⟩
      rw [List.find?_cons_of_neg, hw]
      simp only [decide_eq_true_eq]
      intro heq
      exact hlt (heq ▸ hm)

theorem totalPlannedDistance_spec (dist : ℚ × ℚ → ℚ × ℚ → Option ℚ)
    (D : ℚ × ℚ → ℚ × ℚ → ℚ) (hD : ∀ a b, dist a b = some (D a b)) :
    ∀ pl : List Pt, (∀ p ∈ pl, p.latitude.isSome ∧ p.longitude.isSome) →
      totalPlannedDistance dist pl = .ok (specTotal D pl)
  | [], _ => rfl
  | [_], _ => rfl
  | p :: q :: rest, h => by
    have hp := h p (by simp)
    have hq := h q (by simp)
    have hrest : ∀ x ∈ q :: rest, x.latitude.isSome ∧ x.longitude.isSome :=
      fun x hx => h x (by simp at hx ⊢; tauto)
    have ih := totalPlannedDistance_spec dist D hD (q :: rest) hrest
    simp only [totalPlannedDistance, coordsOf_ok p hp.1 hp.2,
      coordsOf_ok q hq.1 hq.2, ih, hD (cpt p) (cpt q)]
    simp [specTotal, List.zip_cons_cons, List.sum_cons]

/-- Claim C2: with a total, nonnegative distance function, on non-empty
well-formed routes the route-deviation check emits an anomaly iff
worst/total > 0.2 (ratio 0 when the total planned distance is 0, hence no
anomaly then); at most one anomaly is emitted, its severity is high iff the
fraction exceeds 0.5 and medium otherwise, and it is timestamped at the
worst point's raw timestamp (falling back to the current time) and located
at the worst point's coordinates, the worst point being the first actual
point attaining the maximal nearest-waypoint distance. -/
theorem claim2_route_deviation (dist : ℚ × ℚ → ℚ × ℚ → Option ℚ)
    (D : ℚ × ℚ → ℚ × ℚ → ℚ)
    (hD : ∀ a b, dist a b = some (D a b)) (hnn : ∀ a b, 0 ≤ D a b)
    (s : Shipment) (hp : s.planned_route ≠ []) (ha : s.actual_route ≠ [])
    (hc : ∀ p ∈ s.planned_route ++ s.actual_route,
      p.latitude.isSome ∧ p.longitude.isSome) :
    ∃ l, detectRouteDeviations dist s = .ok l ∧
      (¬ route_deviation_threshold < devFraction D s → l = []) ∧
      (route_deviation_threshold < devFraction D s →
        ∃ w, s.actual_route.find?
            (fun a => decide (specMinDist D s.planned_route a =
              specWorst D s.planned_route s.actual_route)) = some w ∧
          l = [⟨.route_deviation,
                .routeDeviation (.fin (specWorst D s.planned_route s.actual_route)),
                if 1/2 < devFraction D s then .high else .medium,
                orNow w.timestamp, some ⟨w.latitude, w.longitude⟩, false⟩]) := by
  have hcp : ∀ p ∈ s.planned_route, p.latitude.isSome ∧ p.longitude.isSome :=
    fun p hq => hc p (by simp [hq])
  have hca : ∀ p ∈ s.actual_route, p.latitude.isSome ∧ p.longitude.isSome :=
    fun p hq => hc p (by simp [hq])
  obtain ⟨res, hres, h1, h2, h3⟩ :=
    worstLoop_spec dist D hD s.planned_route hp hcp s.actual_route 0 none none hca
  have htot := totalPlannedDistance_spec dist D hD s.planned_route hcp
  -- the fold from 0 equals the spec maximum (distances are nonnegative)
  have hFw : List.foldl max 0 (s.actual_route.map (specMinDist D s.planned_route)) =
      specWorst D s.planned_route s.actual_route := by
    obtain ⟨a, as, hroute⟩ := List.exists_cons_of_ne_nil ha
    obtain ⟨qq, qs, hplanned⟩ := List.exists_cons_of_ne_nil hp
    have h0 : (0 : ℚ) ≤ specMinDist D s.planned_route a := by
      rw [hplanned]
      simp only [specMinDist, listMinD, List.map_cons]
      exact foldl_min_nonneg _ _ (hnn _ _)
        (fun x hx => by
          rcases List.mem_map.mp hx with ⟨y, _, hy⟩
          exact hy ▸ hnn _ _)
    rw [hroute]
    simp only [specWorst, listMaxD, List.map_cons, List.foldl_cons]
    rw [max_eq_right h0]
  rw [hFw] at h1 h2 h3
  have hguard : ¬ (s.planned_route = [] ∨ s.actual_route = []) := by
    intro hor
    rcases hor with h | h
    · exact hp h
    · exact ha h
  simp only [detectRouteDeviations, if_neg hguard, hres, htot]
  have hpct : (if 0 < specTotal D s.planned_route then
      (match res.1 with
       | .fin q => RDist.fin (q / specTotal D s.planned_route)
       | .inf => .inf)
      else .fin 0) = .fin (devFraction D s) := by
    by_cases h0 : 0 < specTotal D s.planned_route
    · rw [if_pos h0, h1, devFraction, if_pos h0]
    · rw [if_neg h0, devFraction, if_neg h0]
  rw [hpct]
  by_cases hth : route_deviation_threshold < devFraction D s
  · have hcond : (RDist.fin route_deviation_threshold).blt (.fin (devFraction D s)) = true :=
      decide_eq_true hth
    rw [if_pos hcond]
    have hfpos : 0 < devFraction D s :=
      lt_trans (by norm_num [route_deviation_threshold]) hth
    have htpos : 0 < specTotal D s.planned_route := by
      by_contra h0
      rw [devFraction, if_neg h0] at hfpos
      exact lt_irrefl 0 hfpos
    have hwpos : 0 < specWorst D s.planned_route s.actual_route := by
      have : 0 < specWorst D s.planned_route s.actual_route /
          specTotal D s.planned_route := by
        rw [devFraction, if_pos htpos] at hfpos
        exact hfpos
      rcases div_pos_iff.mp this with ⟨hw, _⟩ | ⟨_, ht⟩
      · exact hw
      · exact absurd htpos (not_lt_of_lt ht)
    obtain ⟨w, hw, hres2⟩ := h2 hwpos
    refine ⟨_, rfl, fun hcon => absurd hth hcon, fun _ => ⟨w, hw, ?_⟩⟩
    have hsev : (RDist.fin (1/2)).blt (.fin (devFraction D s)) =
        decide ((1:ℚ)/2 < devFraction D s) := rfl
    rw [h1, hres2]
    simp only [hsev]
    by_cases hhigh : (1:ℚ)/2 < devFraction D s
    · simp [hhigh]
    · simp [hhigh]
  · have hcond : (RDist.fin route_deviation_threshold).blt (.fin (devFraction D s)) = false :=
      decide_eq_false hth
    rw [if_neg (by simp [hcond])]
    exact ⟨[], rfl, fun _ => rfl, fun hcon => absurd hcon hth⟩

/-- Manhattan-style distance used to instantiate the route-deviation theorem. -/
def w2D : ℚ × ℚ → ℚ × ℚ → ℚ := fun a b => |a.1 - b.1| + |a.2 - b.2|

/-- The corresponding always-succeeding distance stub. -/
def w2Dist : ℚ × ℚ → ℚ × ℚ → Option ℚ := fun a b => some (w2D a b)

/-- Witness shipment: planned route (0,0) to (100,0) (total length 100), one
actual point at (0,30) (nearest planned distance 30, so fraction 3/10 > 1/5). -/
def w2Ship : Shipment :=
  { id := some "S1",
    planned_route := [{ latitude := some 0, longitude := some 0 },
                      { latitude := some 100, longitude := some 0 }],
    actual_route := [{ latitude := some 0, longitude := some 30,
                       timestamp := some "2024-01-01T00:00:00Z" }] }

/-- C2 witness: the route-deviation characterisation instantiated at a concrete
distance function and shipment, every hypothesis discharged by computation. -/
theorem claim2_witness :
    ∃ l, detectRouteDeviations w2Dist w2Ship = .ok l ∧
      (¬ route_deviation_threshold < devFraction w2D w2Ship → l = []) ∧
      (route_deviation_threshold < devFraction w2D w2Ship →
        ∃ w, w2Ship.actual_route.find?
            (fun a => decide (specMinDist w2D w2Ship.planned_route a =
              specWorst w2D w2Ship.planned_route w2Ship.actual_route)) = some w ∧
          l = [⟨.route_deviation,
                .routeDeviation (.fin (specWorst w2D w2Ship.planned_route
                  w2Ship.actual_route)),
                if 1/2 < devFraction w2D w2Ship then .high else .medium,
                orNow w.timestamp, some ⟨w.latitude, w.longitude⟩, false⟩]) :=
  claim2_route_deviation w2Dist w2D (fun _ _ => rfl)
    (fun _ _ => add_nonneg (abs_nonneg _) (abs_nonneg _)) w2Ship
    (by decide) (by decide) (by decide)

end ShipmentAnomaly
